import Mathlib

/-! Big Time Date watch face: slot manager and digit renderer.

A shallow embedding of `src/big_time.c`.  The global array
`image_slot_state` becomes a field of an explicit state, and every call into
the Pebble SDK (and every write into an SDK-owned container) is appended to a
trace, so that acquisitions, releases, attachments and positions can be
observed.  An access outside the bounds of an array has no C semantics; the
operations that can perform one return `none` there, or the fault that names
the indices of the refused access.
-/

namespace BigTime

/-! ## Constants and tables -/

/-- Number of digit positions on screen (`#define TOTAL_IMAGE_SLOTS 4`). -/
abbrev TOTAL_IMAGE_SLOTS : Nat := 4

/-- Number of digit images (`#define NUMBER_OF_IMAGES 10`). -/
abbrev NUMBER_OF_IMAGES : Nat := 10

/-- Marker of a slot without image (`#define EMPTY_SLOT -1`). -/
def EMPTY_SLOT : Int := -1

/-- Frame of the date label, `#define DATE_FRAME (GRect(1, 128, 144, 168-126))`:
origin x, origin y, width, height. -/
def DATE_FRAME : Int × Int × Int × Int := (1, 128, 144, 168 - 126)

/-- Resource identifiers of `resource_ids.auto.h` that the watch face names.
The header is generated; only the identity of each identifier is used here. -/
inductive ResourceId where
  | RESOURCE_ID_IMAGE_NUM_0
  | RESOURCE_ID_IMAGE_NUM_1
  | RESOURCE_ID_IMAGE_NUM_2
  | RESOURCE_ID_IMAGE_NUM_3
  | RESOURCE_ID_IMAGE_NUM_4
  | RESOURCE_ID_IMAGE_NUM_5
  | RESOURCE_ID_IMAGE_NUM_6
  | RESOURCE_ID_IMAGE_NUM_7
  | RESOURCE_ID_IMAGE_NUM_8
  | RESOURCE_ID_IMAGE_NUM_9
  | RESOURCE_ID_IMAGE_MENU_ICON
  | RESOURCE_ID_FUTURA_28
  deriving DecidableEq, Repr

open ResourceId in
/-- The catalog `IMAGE_RESOURCE_IDS[NUMBER_OF_IMAGES]`, indexed by digit. -/
def IMAGE_RESOURCE_IDS : Fin NUMBER_OF_IMAGES → ResourceId
  | 0 => RESOURCE_ID_IMAGE_NUM_0
  | 1 => RESOURCE_ID_IMAGE_NUM_1
  | 2 => RESOURCE_ID_IMAGE_NUM_2
  | 3 => RESOURCE_ID_IMAGE_NUM_3
  | 4 => RESOURCE_ID_IMAGE_NUM_4
  | 5 => RESOURCE_ID_IMAGE_NUM_5
  | 6 => RESOURCE_ID_IMAGE_NUM_6
  | 7 => RESOURCE_ID_IMAGE_NUM_7
  | 8 => RESOURCE_ID_IMAGE_NUM_8
  | 9 => RESOURCE_ID_IMAGE_NUM_9

/-! ## State -/

/-- One effect on the display surface: a call into the SDK on the container
`image_containers[slot]`, or a write of its frame origin. -/
inductive SdkCall where
  | bmp_init_container (resource : ResourceId) (slot : Fin TOTAL_IMAGE_SLOTS)
  | set_frame_origin_x (slot : Fin TOTAL_IMAGE_SLOTS) (x : Int)
  | set_frame_origin_y (slot : Fin TOTAL_IMAGE_SLOTS) (y : Int)
  | layer_add_child (slot : Fin TOTAL_IMAGE_SLOTS)
  | layer_remove_from_parent (slot : Fin TOTAL_IMAGE_SLOTS)
  | bmp_deinit_container (slot : Fin TOTAL_IMAGE_SLOTS)
  | fonts_unload_custom_font
  deriving DecidableEq, Repr

/-- The mutable state of the watch face: the array `image_slot_state` and the
effects issued so far, oldest first. -/
structure State where
  image_slot_state : Fin TOTAL_IMAGE_SLOTS → Int
  trace : List SdkCall

/-- State at program start: `image_slot_state` is initialised to four
`EMPTY_SLOT` entries and nothing has been issued. -/
def State.initial : State :=
  { image_slot_state := fun _ => EMPTY_SLOT, trace := [] }

/-- Index into an array of `TOTAL_IMAGE_SLOTS` entries with a C `int`;
`none` when the index is outside the array. -/
def slotIndex (i : Int) : Option (Fin TOTAL_IMAGE_SLOTS) :=
  if h : 0 ≤ i ∧ i < 4 then some ⟨i.toNat, by show i.toNat < 4; omega⟩ else none

/-- Conversion of a C `int` to `unsigned short` (16 bits). -/
def toUShort (x : Int) : Nat := (x % 65536).toNat

/-! ## Slot manager -/

/-- Embedding of `load_digit_image_into_slot`. -/
def load_digit_image_into_slot (slot_number digit_value : Int) (st : State) : State :=
  if h1 : slot_number < 0 ∨ slot_number ≥ 4 then st
  else if h2 : digit_value < 0 ∨ digit_value > 9 then st
  else
    let slot : Fin TOTAL_IMAGE_SLOTS := ⟨slot_number.toNat, by show slot_number.toNat < 4; omega⟩
    let digit : Fin NUMBER_OF_IMAGES := ⟨digit_value.toNat, by show digit_value.toNat < 10; omega⟩
    if st.image_slot_state slot ≠ EMPTY_SLOT then st
    else
      { image_slot_state := Function.update st.image_slot_state slot digit_value
        trace := st.trace ++
          [ SdkCall.bmp_init_container (IMAGE_RESOURCE_IDS digit) slot,
            SdkCall.set_frame_origin_x slot ((slot_number % 2) * 72),
            SdkCall.set_frame_origin_y slot ((slot_number / 2) * 64),
            SdkCall.layer_add_child slot ] }

/-- Embedding of `unload_digit_image_from_slot`.  The source reads
`image_slot_state[slot_number]` without a range check. -/
def unload_digit_image_from_slot (slot_number : Int) (st : State) : Option State :=
  match slotIndex slot_number with
  | none => none
  | some slot =>
    if st.image_slot_state slot ≠ EMPTY_SLOT then
      some
        { image_slot_state := Function.update st.image_slot_state slot EMPTY_SLOT
          trace := st.trace ++
            [ SdkCall.layer_remove_from_parent slot,
              SdkCall.bmp_deinit_container slot ] }
    else some st

/-! ## Digit renderer -/

/-- The loop of `display_value`: `n` is `column_number + 1`, so the loop
runs for `column_number = n - 1, ..., 0` and stops at `column_number = -1`. -/
def display_value_loop (row_number : Nat) (show_first_leading_zero : Bool) :
    Nat → Nat → State → Option State
  | 0, _, st => some st
  | column_number + 1, value, st =>
    let slot_number : Int := ((row_number : Int) * 2) + (column_number : Int)
    match unload_digit_image_from_slot slot_number st with
    | none => none
    | some st1 =>
      let st2 :=
        if ¬ (value = 0 ∧ column_number = 0 ∧ show_first_leading_zero = false) then
          load_digit_image_into_slot slot_number ((value % 10 : Nat) : Int) st1
        else st1
      display_value_loop row_number show_first_leading_zero column_number (value / 10) st2

/-- Embedding of `display_value`; `value` and `row_number` are
`unsigned short`. -/
def display_value (value row_number : Nat) (show_first_leading_zero : Bool)
    (st : State) : Option State :=
  display_value_loop row_number show_first_leading_zero 2 (value % 100) st

/-- Embedding of `get_display_hour`; `clock_is_24h_style` is the answer of
the SDK call `clock_is_24h_style()`. -/
def get_display_hour (clock_is_24h_style : Bool) (hour : Nat) : Nat :=
  if clock_is_24h_style then hour
  else
    let display_hour := hour % 12
    if display_hour ≠ 0 then display_hour else 12

/-- Embedding of `display_time`; `tm_hour` and `tm_min` are the `int` fields
of the broken-down time, converted to `unsigned short` at the calls. -/
def display_time (tm_hour tm_min : Int) (clock_is_24h_style : Bool)
    (st : State) : Option State :=
  match display_value (get_display_hour clock_is_24h_style (toUShort tm_hour)) 0 false st with
  | none => none
  | some st1 => display_value (toUShort tm_min) 1 true st1

/-- The loop of `handle_deinit`, entered with loop counter `i`:
`for (; i < TOTAL_IMAGE_SLOTS; i++) unload_digit_image_from_slot(i);`. -/
def handle_deinit_loop (i : Nat) (st : State) : Option State :=
  if i < TOTAL_IMAGE_SLOTS then
    match unload_digit_image_from_slot (i : Int) st with
    | none => none
    | some st1 => handle_deinit_loop (i + 1) st1
  else some st
termination_by TOTAL_IMAGE_SLOTS - i

/-- Embedding of `handle_deinit`. -/
def handle_deinit (st : State) : Option State :=
  match handle_deinit_loop 0 st with
  | none => none
  | some st1 => some { st1 with trace := st1.trace ++ [SdkCall.fonts_unload_custom_font] }

/-! ## Observations -/

/-- Slot state in the words of the specification. -/
inductive SlotState where
  | Empty
  | Loaded (digit : Int)
  deriving DecidableEq, Repr

/-- Reading of one entry of `image_slot_state`. -/
def slotOf (v : Int) : SlotState :=
  if v = EMPTY_SLOT then SlotState.Empty else SlotState.Loaded v

/-- The four slots of a state, in index order. -/
def State.slots (st : State) : List SlotState :=
  [slotOf (st.image_slot_state 0), slotOf (st.image_slot_state 1),
   slotOf (st.image_slot_state 2), slotOf (st.image_slot_state 3)]

/-! ## Accounting of images -/

/-- Number of images acquired (calls of `bmp_init_container`) in a trace. -/
def acquired : List SdkCall → Nat
  | [] => 0
  | SdkCall.bmp_init_container _ _ :: t => acquired t + 1
  | _ :: t => acquired t

/-- Number of images released (calls of `bmp_deinit_container`) in a trace. -/
def released : List SdkCall → Nat
  | [] => 0
  | SdkCall.bmp_deinit_container _ :: t => released t + 1
  | _ :: t => released t

/-- Number of slots of a state that hold an image. -/
def loadedCount (st : State) : Nat :=
  (List.finRange TOTAL_IMAGE_SLOTS).countP (fun s => decide (st.image_slot_state s ≠ EMPTY_SLOT))

/-- Replays a trace against the set of containers that hold an image:
acquiring into a container that holds one, or releasing a container that holds
none, is refused with `none`; otherwise the final set is returned. -/
def replay : List SdkCall → (Fin TOTAL_IMAGE_SLOTS → Bool) →
    Option (Fin TOTAL_IMAGE_SLOTS → Bool)
  | [], held => some held
  | SdkCall.bmp_init_container _ slot :: t, held =>
    if held slot then none else replay t (Function.update held slot true)
  | SdkCall.bmp_deinit_container slot :: t, held =>
    if held slot then replay t (Function.update held slot false) else none
  | _ :: t, held => replay t held

/-- The containers that hold an image according to `image_slot_state`. -/
def State.held (st : State) : Fin TOTAL_IMAGE_SLOTS → Bool :=
  fun s => decide (st.image_slot_state s ≠ EMPTY_SLOT)

/-- Indicator of an entry of `image_slot_state` that stands for an image. -/
def occupied (v : Int) : Nat := if v ≠ EMPTY_SLOT then 1 else 0

/-- The accounting invariant of a state: its trace acquires only into
containers that hold no image and releases only containers that hold one, the
containers left holding an image are the slots marked as loaded, and the
images acquired and not released are as many as the loaded slots. -/
def Balanced (st : State) : Prop :=
  replay st.trace (fun _ => false) = some st.held ∧
  acquired st.trace = released st.trace + loadedCount st

/-! ## Sequences of operations -/

/-- One call of an operation of the watch face. -/
inductive Op where
  | load (slot_number digit_value : Int)
  | unload (slot_number : Int)
  | display_value (value row_number : Nat) (show_first_leading_zero : Bool)
  | display_time (tm_hour tm_min : Int) (clock_is_24h_style : Bool)
  deriving DecidableEq, Repr

/-- The calls considered: any `load`, `unload` with a slot index in `0..3`,
`display_value` with a row in `0..1`, any `display_time`. -/
def Op.admissible : Op → Bool
  | Op.load _ _ => true
  | Op.unload slot_number => decide (0 ≤ slot_number ∧ slot_number < 4)
  | Op.display_value _ row_number _ => decide (row_number ≤ 1)
  | Op.display_time _ _ _ => true

/-- Effect of one call on the state. -/
def Op.step : Op → State → Option State
  | Op.load slot_number digit_value, st =>
    some (load_digit_image_into_slot slot_number digit_value st)
  | Op.unload slot_number, st => unload_digit_image_from_slot slot_number st
  | Op.display_value value row_number show_first_leading_zero, st =>
    BigTime.display_value value row_number show_first_leading_zero st
  | Op.display_time tm_hour tm_min clock_is_24h_style, st =>
    BigTime.display_time tm_hour tm_min clock_is_24h_style st

/-- Effect of a sequence of calls, first call first. -/
def run : List Op → State → Option State
  | [], st => some st
  | op :: ops, st =>
    match op.step st with
    | none => none
    | some st1 => run ops st1

/-- States reached from the state at program start by admissible calls. -/
def Reachable (st : State) : Prop :=
  ∃ ops : List Op, (∀ op ∈ ops, op.admissible = true) ∧ run ops State.initial = some st

/-- The calls of the slot manager issued by the loop of `display_value`, in
the order of issue: the loop of `display_value_loop` with each call written
down instead of carried out. -/
def display_value_loop_calls (row_number : Nat) (show_first_leading_zero : Bool) :
    Nat → Nat → List Op
  | 0, _ => []
  | column_number + 1, value =>
    let slot_number : Int := ((row_number : Int) * 2) + (column_number : Int)
    [Op.unload slot_number] ++
      (if ¬ (value = 0 ∧ column_number = 0 ∧ show_first_leading_zero = false) then
        [Op.load slot_number ((value % 10 : Nat) : Int)]
      else []) ++
      display_value_loop_calls row_number show_first_leading_zero column_number (value / 10)

/-- The calls of the slot manager issued by `display_value`, in the order of
issue. -/
def display_value_calls (value row_number : Nat) (show_first_leading_zero : Bool) : List Op :=
  display_value_loop_calls row_number show_first_leading_zero 2 (value % 100)

/-- Every entry of `image_slot_state` is `EMPTY_SLOT` or a digit in `0..9`. -/
def ValidSlots (st : State) : Prop :=
  ∀ s : Fin TOTAL_IMAGE_SLOTS,
    st.image_slot_state s = EMPTY_SLOT ∨ (0 ≤ st.image_slot_state s ∧ st.image_slot_state s ≤ 9)

/-- The container that an effect acts on, if any. -/
def SdkCall.slot : SdkCall → Option (Fin TOTAL_IMAGE_SLOTS)
  | SdkCall.bmp_init_container _ slot => some slot
  | SdkCall.set_frame_origin_x slot _ => some slot
  | SdkCall.set_frame_origin_y slot _ => some slot
  | SdkCall.layer_add_child slot => some slot
  | SdkCall.layer_remove_from_parent slot => some slot
  | SdkCall.bmp_deinit_container slot => some slot
  | SdkCall.fonts_unload_custom_font => none

/-! ## Date label -/

/-- The terminating byte of a C string. -/
def NUL : Char := Char.ofNat 0

/-- Size of `static char date_text[] = "XXX 00"`: six characters and the
terminating NUL (`sizeof(date_text)`). -/
abbrev DATE_TEXT_SIZE : Nat := 7

/-- An access outside `date_text`: the indices that the refused call was to
read and to write. -/
structure Fault where
  reads : List Nat
  writes : List Nat
  deriving DecidableEq, Repr

/-- State of the date label: the seven bytes of the static buffer
`date_text`, and whether `text_layer_set_text(&date_layer, date_text)` has
been called. -/
structure DateState where
  date_text : Fin DATE_TEXT_SIZE → Char
  date_layer_text : Bool

/-- State of the date label at program start: `date_text` holds `"XXX 00"`
and the label has no text. -/
def DateState.initial : DateState :=
  { date_text := fun i =>
      ((['X', 'X', 'X', ' ', '0', '0', NUL] : List Char)[(i : Nat)]?).getD NUL
    date_layer_text := false }

/-- Read of the byte `date_text[i]`; `none` outside the buffer. -/
def readByte (date_text : Fin DATE_TEXT_SIZE → Char) (i : Nat) : Option Char :=
  if h : i < DATE_TEXT_SIZE then some (date_text ⟨i, h⟩) else none

/-- The C library call `memmove(&date_text[dest], &date_text[src], n)`: `n`
bytes are copied as if through a buffer of their own.  A move that reads or
writes an index outside `date_text` has no C semantics and is refused with
the indices it was to read and to write. -/
def memmove (dest src n : Nat) (date_text : Fin DATE_TEXT_SIZE → Char) :
    Except Fault (Fin DATE_TEXT_SIZE → Char) :=
  if h : src + n ≤ DATE_TEXT_SIZE ∧ dest + n ≤ DATE_TEXT_SIZE then
    Except.ok (fun i =>
      if hi : dest ≤ (i : Nat) ∧ (i : Nat) < dest + n then
        date_text ⟨src + ((i : Nat) - dest), by
          have h1 := h.1
          have h2 := hi.2
          show src + ((i : Nat) - dest) < 7
          have hT : DATE_TEXT_SIZE = 7 := rfl
          omega⟩
      else date_text i)
  else Except.error { reads := List.range' src n, writes := List.range' dest n }

/-- The SDK call `string_format_time(date_text, size, format, time)`, where
`formatted` is the text that the format gives for the time: at most
`size - 1` characters of it and a terminating NUL are stored from index 0 on.
A `size` above that of `date_text` is refused. -/
def string_format_time (size : Nat) (formatted : List Char)
    (date_text : Fin DATE_TEXT_SIZE → Char) : Except Fault (Fin DATE_TEXT_SIZE → Char) :=
  if size ≤ DATE_TEXT_SIZE then
    Except.ok (fun i => ((formatted.take (size - 1) ++ [NUL])[(i : Nat)]?).getD (date_text i))
  else Except.error { reads := [], writes := List.range' 0 size }

/-- Embedding of `display_date`.  `DAY_UNIT` is the constant of that name of
the SDK headers, `units_changed` the field of the tick event, and `formatted`
the text of the tick time in the format `"%a %d"`. -/
def display_date (DAY_UNIT units_changed : Nat) (formatted : List Char) (st : DateState) :
    Except Fault DateState :=
  if units_changed &&& DAY_UNIT ≠ 0 then
    match string_format_time DATE_TEXT_SIZE formatted st.date_text with
    | Except.error fault => Except.error fault
    | Except.ok date_text1 =>
      if date_text1 4 = '0' then
        match memmove 4 5 (DATE_TEXT_SIZE - 1) date_text1 with
        | Except.error fault => Except.error fault
        | Except.ok date_text2 => Except.ok { date_text := date_text2, date_layer_text := true }
      else Except.ok { date_text := date_text1, date_layer_text := true }
  else Except.ok st

/-- The C string that starts at `date_text[start]`: the characters before the
first NUL; `none` when the end of the buffer or of the `fuel` is met first. -/
def c_string (date_text : Fin DATE_TEXT_SIZE → Char) (start : Nat) : Nat → Option (List Char)
  | 0 => none
  | fuel + 1 =>
    match readByte date_text start with
    | none => none
    | some c =>
      if c = NUL then some []
      else (c_string date_text (start + 1) fuel).map (fun text => c :: text)

/-- The text that the date label shows: the C string in `date_text`, once the
buffer has been given to the label. -/
def date_label (st : DateState) (fuel : Nat) : Option (List Char) :=
  if st.date_layer_text = true then c_string st.date_text 0 fuel else none

/-- The characters of `text`, none of them NUL, lie in `date_text` from
`start` on and are followed by a NUL. -/
def StoredAt (date_text : Fin DATE_TEXT_SIZE → Char) : Nat → List Char → Prop
  | start, [] => readByte date_text start = some NUL
  | start, c :: text =>
    readByte date_text start = some c ∧ c ≠ NUL ∧ StoredAt date_text (start + 1) text

/-! ## Basic facts about the slot manager -/

theorem slotIndex_some {i : Int} {slot : Fin TOTAL_IMAGE_SLOTS}
    (h : slotIndex i = some slot) : 0 ≤ i ∧ i < 4 ∧ (slot : Nat) = i.toNat := by
  unfold slotIndex at h
  split at h
  · rename_i hi
    simp only [Option.some.injEq] at h
    subst h
    exact ⟨hi.1, hi.2, rfl⟩
  · simp at h

theorem slotIndex_of_range {i : Int} (h0 : 0 ≤ i) (h4 : i < 4) :
    ∃ slot, slotIndex i = some slot := by
  unfold slotIndex
  rw [dif_pos ⟨h0, h4⟩]
  exact ⟨_, rfl⟩

theorem slotIndex_none {i : Int} (h : i < 0 ∨ 4 ≤ i) : slotIndex i = none := by
  unfold slotIndex
  rw [dif_neg]
  omega

theorem slotIndex_fin (s : Fin TOTAL_IMAGE_SLOTS) : slotIndex ((s : Nat) : Int) = some s := by
  have hs : (s : Nat) < 4 := s.isLt
  unfold slotIndex
  rw [dif_pos ⟨by omega, by omega⟩]
  simp

/-- A load whose three guards pass. -/
theorem load_success {slot_number digit_value : Int} {slot : Fin TOTAL_IMAGE_SLOTS}
    {digit : Fin NUMBER_OF_IMAGES} (st : State)
    (hs : slotIndex slot_number = some slot)
    (hd : ((digit : Nat) : Int) = digit_value)
    (he : st.image_slot_state slot = EMPTY_SLOT) :
    load_digit_image_into_slot slot_number digit_value st =
      { image_slot_state := Function.update st.image_slot_state slot digit_value
        trace := st.trace ++
          [ SdkCall.bmp_init_container (IMAGE_RESOURCE_IDS digit) slot,
            SdkCall.set_frame_origin_x slot ((slot_number % 2) * 72),
            SdkCall.set_frame_origin_y slot ((slot_number / 2) * 64),
            SdkCall.layer_add_child slot ] } := by
  obtain ⟨h0, h4, hv⟩ := slotIndex_some hs
  have hdig : (digit : Nat) < 10 := digit.isLt
  have hslot : (⟨slot_number.toNat, by show slot_number.toNat < 4; omega⟩ :
      Fin TOTAL_IMAGE_SLOTS) = slot := Fin.ext hv.symm
  have hdigit : (⟨digit_value.toNat, by show digit_value.toNat < 10; omega⟩ :
      Fin NUMBER_OF_IMAGES) = digit := Fin.ext (by show digit_value.toNat = digit; omega)
  unfold load_digit_image_into_slot
  rw [dif_neg (by omega), dif_neg (by omega)]
  simp only [hslot, hdigit, he, ne_eq, not_true_eq_false, if_false]

/-- A load refused by one of its guards. -/
theorem load_refused (slot_number digit_value : Int) (st : State)
    (h : slot_number < 0 ∨ slot_number ≥ 4 ∨ digit_value < 0 ∨ digit_value > 9 ∨
      ∃ slot, slotIndex slot_number = some slot ∧ st.image_slot_state slot ≠ EMPTY_SLOT) :
    load_digit_image_into_slot slot_number digit_value st = st := by
  unfold load_digit_image_into_slot
  by_cases h1 : slot_number < 0 ∨ slot_number ≥ 4
  · rw [dif_pos h1]
  · rw [dif_neg h1]
    by_cases h2 : digit_value < 0 ∨ digit_value > 9
    · rw [dif_pos h2]
    · rw [dif_neg h2]
      have h3 : ∃ slot, slotIndex slot_number = some slot ∧
          st.image_slot_state slot ≠ EMPTY_SLOT := by
        rcases h with h | h | h | h | h
        · exact absurd (Or.inl h) h1
        · exact absurd (Or.inr h) h1
        · exact absurd (Or.inl h) h2
        · exact absurd (Or.inr h) h2
        · exact h
      obtain ⟨slot, hs, hne⟩ := h3
      obtain ⟨h0, h4, hv⟩ := slotIndex_some hs
      have hslot : (⟨slot_number.toNat, by show slot_number.toNat < 4; omega⟩ :
          Fin TOTAL_IMAGE_SLOTS) = slot := Fin.ext hv.symm
      simp only [hslot]
      rw [if_pos hne]

/-- An unload with its index inside the array. -/
theorem unload_eq {slot_number : Int} {slot : Fin TOTAL_IMAGE_SLOTS} (st : State)
    (hs : slotIndex slot_number = some slot) :
    unload_digit_image_from_slot slot_number st =
      some (if st.image_slot_state slot ≠ EMPTY_SLOT then
        { image_slot_state := Function.update st.image_slot_state slot EMPTY_SLOT
          trace := st.trace ++
            [ SdkCall.layer_remove_from_parent slot,
              SdkCall.bmp_deinit_container slot ] }
        else st) := by
  unfold unload_digit_image_from_slot
  rw [hs]
  simp only
  split <;> rfl

theorem unload_slots {slot_number : Int} {slot : Fin TOTAL_IMAGE_SLOTS} {st st1 : State}
    (hs : slotIndex slot_number = some slot)
    (hu : unload_digit_image_from_slot slot_number st = some st1) :
    st1.image_slot_state = Function.update st.image_slot_state slot EMPTY_SLOT := by
  rw [unload_eq st hs] at hu
  simp only [Option.some.injEq] at hu
  subst hu
  split
  · rfl
  · rename_i he
    simp only [ne_eq, not_not] at he
    rw [← he, Function.update_eq_self]

theorem acquired_append (a b : List SdkCall) : acquired (a ++ b) = acquired a + acquired b := by
  induction a with
  | nil => simp [acquired]
  | cons c t ih => cases c <;> simp [acquired, ih, Nat.add_right_comm]

theorem released_append (a b : List SdkCall) : released (a ++ b) = released a + released b := by
  induction a with
  | nil => simp [released]
  | cons c t ih => cases c <;> simp [released, ih, Nat.add_right_comm]

/-! ## Basic facts about the digit renderer -/

theorem display_value_loop_succ (row_number : Nat) (show_first_leading_zero : Bool)
    (column_number value : Nat) (st : State) :
    display_value_loop row_number show_first_leading_zero (column_number + 1) value st =
      match unload_digit_image_from_slot
          (((row_number : Int) * 2) + (column_number : Int)) st with
      | none => none
      | some st1 =>
        display_value_loop row_number show_first_leading_zero column_number (value / 10)
          (if ¬ (value = 0 ∧ column_number = 0 ∧ show_first_leading_zero = false) then
            load_digit_image_into_slot (((row_number : Int) * 2) + (column_number : Int))
              ((value % 10 : Nat) : Int) st1
          else st1) := rfl

/-- The two slots of a row: `2 * row + 1` for the ones, `2 * row` for the tens. -/
theorem row_slotIndex {row_number : Nat} (h : row_number ≤ 1) :
    slotIndex (((row_number : Int) * 2) + ((1 : Nat) : Int))
        = some ⟨2 * row_number + 1, by show 2 * row_number + 1 < 4; omega⟩ ∧
    slotIndex (((row_number : Int) * 2) + ((0 : Nat) : Int))
        = some ⟨2 * row_number, by show 2 * row_number < 4; omega⟩ := by
  constructor
  · unfold slotIndex
    rw [dif_pos (by omega)]
    simp only [Option.some.injEq]
    apply Fin.ext
    show (((row_number : Int) * 2) + ((1 : Nat) : Int)).toNat = 2 * row_number + 1
    omega
  · unfold slotIndex
    rw [dif_pos (by omega)]
    simp only [Option.some.injEq]
    apply Fin.ext
    show (((row_number : Int) * 2) + ((0 : Nat) : Int)).toNat = 2 * row_number
    omega

/-- The calls made by `display_value` on a row of the display, one after the
other: unload and load of the ones slot, unload of the tens slot and, unless
the leading zero is blanked, load of the tens slot. -/
theorem display_value_chain (value row_number : Nat) (show_first_leading_zero : Bool)
    (st : State) (h : row_number ≤ 1) :
    ∃ st1 st2,
      unload_digit_image_from_slot (((row_number : Int) * 2) + ((1 : Nat) : Int)) st = some st1 ∧
      unload_digit_image_from_slot (((row_number : Int) * 2) + ((0 : Nat) : Int))
        (load_digit_image_into_slot (((row_number : Int) * 2) + ((1 : Nat) : Int))
          ((value % 100 % 10 : Nat) : Int) st1) = some st2 ∧
      display_value value row_number show_first_leading_zero st =
        some (if value % 100 / 10 = 0 ∧ show_first_leading_zero = false then st2
          else load_digit_image_into_slot (((row_number : Int) * 2) + ((0 : Nat) : Int))
            ((value % 100 / 10 % 10 : Nat) : Int) st2) := by
  obtain ⟨h1, h0⟩ := row_slotIndex h
  refine ⟨_, _, unload_eq st h1, unload_eq _ h0, ?_⟩
  unfold display_value
  rw [display_value_loop_succ, unload_eq st h1]
  simp only [Nat.succ_ne_zero, false_and, and_false, not_false_eq_true, if_true,
    one_ne_zero]
  rw [display_value_loop_succ, unload_eq _ h0]
  simp only [true_and, display_value_loop]
  by_cases hz : value % 100 / 10 = 0 ∧ show_first_leading_zero = false
  · rw [if_neg (not_not.mpr hz), if_pos hz]
  · rw [if_pos hz, if_neg hz]

/-- Contents of `image_slot_state` after `display_value` on a row of the
display. -/
theorem display_value_slots (value row_number : Nat) (show_first_leading_zero : Bool)
    (st : State) (h : row_number ≤ 1) :
    ∃ st3, display_value value row_number show_first_leading_zero st = some st3 ∧
      st3.image_slot_state =
        Function.update
          (Function.update st.image_slot_state
            ⟨2 * row_number + 1, by show 2 * row_number + 1 < 4; omega⟩
            ((value % 100 % 10 : Nat) : Int))
          ⟨2 * row_number, by show 2 * row_number < 4; omega⟩
          (if value % 100 / 10 = 0 ∧ show_first_leading_zero = false then EMPTY_SLOT
            else ((value % 100 / 10 : Nat) : Int)) := by
  obtain ⟨h1, h0⟩ := row_slotIndex h
  obtain ⟨st1, st2, hu1, hu2, hv⟩ := display_value_chain value row_number
    show_first_leading_zero st h
  have e1 := unload_slots h1 hu1
  have hd1 : (((⟨value % 100 % 10, by show value % 100 % 10 < 10; omega⟩ :
      Fin NUMBER_OF_IMAGES) : Nat) : Int) = ((value % 100 % 10 : Nat) : Int) := rfl
  have hl1 := load_success st1 h1 hd1 (by rw [e1]; simp)
  rw [hl1] at hu2
  have e2 := unload_slots h0 hu2
  simp only [e1, Function.update_idem] at e2
  refine ⟨_, hv, ?_⟩
  by_cases hz : value % 100 / 10 = 0 ∧ show_first_leading_zero = false
  · rw [if_pos hz, if_pos hz, e2]
  · rw [if_neg hz, if_neg hz]
    have hlt : value % 100 / 10 < 10 := by omega
    have hd0 : (((⟨value % 100 / 10, by show value % 100 / 10 < 10; omega⟩ :
        Fin NUMBER_OF_IMAGES) : Nat) : Int) = ((value % 100 / 10 % 10 : Nat) : Int) := by
      show ((value % 100 / 10 : Nat) : Int) = ((value % 100 / 10 % 10 : Nat) : Int)
      rw [Nat.mod_eq_of_lt hlt]
    rw [load_success st2 h0 hd0 (by rw [e2]; simp)]
    simp only [e2, Function.update_idem, Nat.mod_eq_of_lt hlt]

/-- Contents of the four entries of `image_slot_state` after `display_time`,
for any broken-down time and any state before. -/
theorem display_time_slots (tm_hour tm_min : Int) (clock_is_24h_style : Bool) (st : State) :
    ∃ st2, display_time tm_hour tm_min clock_is_24h_style st = some st2 ∧
      st2.image_slot_state 0 =
        (if get_display_hour clock_is_24h_style (toUShort tm_hour) % 100 / 10 = 0
          then EMPTY_SLOT
          else ((get_display_hour clock_is_24h_style (toUShort tm_hour) % 100 / 10 : Nat) : Int)) ∧
      st2.image_slot_state 1 =
        ((get_display_hour clock_is_24h_style (toUShort tm_hour) % 100 % 10 : Nat) : Int) ∧
      st2.image_slot_state 2 = ((toUShort tm_min % 100 / 10 : Nat) : Int) ∧
      st2.image_slot_state 3 = ((toUShort tm_min % 100 % 10 : Nat) : Int) := by
  obtain ⟨st1, hv1, e1⟩ := display_value_slots
    (get_display_hour clock_is_24h_style (toUShort tm_hour)) 0 false st (by decide)
  obtain ⟨st2, hv2, e2⟩ := display_value_slots (toUShort tm_min) 1 true st1 (by decide)
  refine ⟨st2, ?_, ?_, ?_, ?_, ?_⟩
  · unfold display_time
    rw [hv1]
    exact hv2
  · rw [e2, e1]
    have h02 : (0 : Fin TOTAL_IMAGE_SLOTS) ≠ ⟨2 * 1, by decide⟩ := by decide
    have h03 : (0 : Fin TOTAL_IMAGE_SLOTS) ≠ ⟨2 * 1 + 1, by decide⟩ := by decide
    rw [Function.update_noteq h02, Function.update_noteq h03]
    have h00 : (⟨2 * 0, by decide⟩ : Fin TOTAL_IMAGE_SLOTS) = 0 := rfl
    rw [h00, Function.update_same]
    simp
  · rw [e2, e1]
    have h12 : (1 : Fin TOTAL_IMAGE_SLOTS) ≠ ⟨2 * 1, by decide⟩ := by decide
    have h13 : (1 : Fin TOTAL_IMAGE_SLOTS) ≠ ⟨2 * 1 + 1, by decide⟩ := by decide
    have h10 : (1 : Fin TOTAL_IMAGE_SLOTS) ≠ ⟨2 * 0, by decide⟩ := by decide
    rw [Function.update_noteq h12, Function.update_noteq h13, Function.update_noteq h10]
    have h11 : (⟨2 * 0 + 1, by decide⟩ : Fin TOTAL_IMAGE_SLOTS) = 1 := rfl
    rw [h11, Function.update_same]
  · rw [e2]
    have h22 : (⟨2 * 1, by decide⟩ : Fin TOTAL_IMAGE_SLOTS) = 2 := rfl
    rw [h22, Function.update_same]
    simp
  · rw [e2]
    have h32 : (3 : Fin TOTAL_IMAGE_SLOTS) ≠ ⟨2 * 1, by decide⟩ := by decide
    rw [Function.update_noteq h32]
    have h33 : (⟨2 * 1 + 1, by decide⟩ : Fin TOTAL_IMAGE_SLOTS) = 3 := rfl
    rw [h33, Function.update_same]

theorem slotOf_natCast (n : Nat) : slotOf ((n : Nat) : Int) = SlotState.Loaded ((n : Nat) : Int) := by
  have h : ((n : Nat) : Int) ≠ EMPTY_SLOT := by
    unfold EMPTY_SLOT
    omega
  simp [slotOf, h]

theorem slotOf_empty : slotOf EMPTY_SLOT = SlotState.Empty := by
  simp [slotOf]

theorem toUShort_natCast {n : Nat} (h : n < 65536) : toUShort ((n : Nat) : Int) = n := by
  unfold toUShort
  omega

/-! ## The accounting invariant -/

theorem replay_append (a b : List SdkCall) (held : Fin TOTAL_IMAGE_SLOTS → Bool) :
    replay (a ++ b) held = (replay a held).bind (replay b) := by
  induction a generalizing held with
  | nil => simp [replay]
  | cons c t ih =>
    cases c with
    | bmp_init_container r slot =>
      change (if held slot then none else replay (t ++ b) (Function.update held slot true)) =
        (if held slot then none else replay t (Function.update held slot true)).bind (replay b)
      by_cases h : held slot = true
      · simp [h]
      · simp [h, ih]
    | bmp_deinit_container slot =>
      change (if held slot then replay (t ++ b) (Function.update held slot false) else none) =
        (if held slot then replay t (Function.update held slot false) else none).bind (replay b)
      by_cases h : held slot = true
      · simp [h, ih]
      · simp [h]
    | set_frame_origin_x slot x => exact ih held
    | set_frame_origin_y slot y => exact ih held
    | layer_add_child slot => exact ih held
    | layer_remove_from_parent slot => exact ih held
    | fonts_unload_custom_font => exact ih held

theorem loadedCount_eq (st : State) :
    loadedCount st = occupied (st.image_slot_state 0) + occupied (st.image_slot_state 1) +
      occupied (st.image_slot_state 2) + occupied (st.image_slot_state 3) := by
  have h : List.finRange TOTAL_IMAGE_SLOTS = [0, 1, 2, 3] := by decide
  unfold loadedCount occupied
  rw [h]
  simp only [List.countP_cons, List.countP_nil, decide_eq_true_eq]
  omega

theorem loadedCount_update (f : Fin TOTAL_IMAGE_SLOTS → Int) (t u : List SdkCall)
    (slot : Fin TOTAL_IMAGE_SLOTS) (v : Int) :
    loadedCount { image_slot_state := Function.update f slot v, trace := t } + occupied (f slot)
      = loadedCount { image_slot_state := f, trace := u } + occupied v := by
  rw [loadedCount_eq, loadedCount_eq]
  have hslot : slot = 0 ∨ slot = 1 ∨ slot = 2 ∨ slot = 3 := by
    fin_cases slot <;> decide
  rcases hslot with rfl | rfl | rfl | rfl <;> simp [Function.update] <;> omega

theorem held_update (f : Fin TOTAL_IMAGE_SLOTS → Int) (t u : List SdkCall)
    (slot : Fin TOTAL_IMAGE_SLOTS) (v : Int) :
    State.held { image_slot_state := Function.update f slot v, trace := t } =
      Function.update (State.held { image_slot_state := f, trace := u }) slot
        (decide (v ≠ EMPTY_SLOT)) := by
  funext s
  unfold State.held
  by_cases hs : s = slot
  · subst hs
    simp
  · simp [Function.update_noteq hs]

theorem balanced_initial : Balanced State.initial := by
  constructor
  · show some (fun _ => false) = some (State.held State.initial)
    rfl
  · rw [loadedCount_eq]
    simp [State.initial, acquired, released, occupied]

theorem load_balanced (slot_number digit_value : Int) (st : State) (hb : Balanced st) :
    Balanced (load_digit_image_into_slot slot_number digit_value st) := by
  by_cases h : slot_number < 0 ∨ slot_number ≥ 4 ∨ digit_value < 0 ∨ digit_value > 9 ∨
      ∃ slot, slotIndex slot_number = some slot ∧ st.image_slot_state slot ≠ EMPTY_SLOT
  · rw [load_refused slot_number digit_value st h]
    exact hb
  · simp only [not_or, not_exists, not_and, not_lt, ge_iff_le, not_le, gt_iff_lt, ne_eq,
      not_not] at h
    obtain ⟨h0, h4, hd0, hd9, he⟩ := h
    obtain ⟨slot, hs⟩ := slotIndex_of_range h0 h4
    have he2 := he slot hs
    have hdig : ((((⟨digit_value.toNat, by show digit_value.toNat < 10; omega⟩ :
        Fin NUMBER_OF_IMAGES) : Nat) : Int)) = digit_value := by
      show ((digit_value.toNat : Nat) : Int) = digit_value
      omega
    rw [load_success st hs hdig he2]
    have hne : digit_value ≠ EMPTY_SLOT := by
      unfold EMPTY_SLOT
      omega
    obtain ⟨hr, hc⟩ := hb
    constructor
    · simp only
      rw [replay_append, hr, held_update _ _ st.trace]
      have hheld : State.held st slot = false := by
        simp [State.held, he2]
      have hst : ({ image_slot_state := st.image_slot_state, trace := st.trace } : State) = st := rfl
      simp [replay, hheld, hne, hst]
    · have hcount := loadedCount_update st.image_slot_state
        (st.trace ++
          [ SdkCall.bmp_init_container (IMAGE_RESOURCE_IDS ⟨digit_value.toNat,
              by show digit_value.toNat < 10; omega⟩) slot,
            SdkCall.set_frame_origin_x slot ((slot_number % 2) * 72),
            SdkCall.set_frame_origin_y slot ((slot_number / 2) * 64),
            SdkCall.layer_add_child slot ]) st.trace slot digit_value
      have hst : ({ image_slot_state := st.image_slot_state, trace := st.trace } : State) = st := rfl
      rw [hst] at hcount
      simp only [acquired_append, released_append, acquired, released]
      simp only [occupied, he2, hne, ne_eq, not_true_eq_false, not_false_eq_true, if_true,
        if_false] at hcount
      omega

theorem unload_balanced (slot_number : Int) (st st1 : State) (hb : Balanced st)
    (hu : unload_digit_image_from_slot slot_number st = some st1) : Balanced st1 := by
  cases hidx : slotIndex slot_number with
  | none =>
    unfold unload_digit_image_from_slot at hu
    rw [hidx] at hu
    simp at hu
  | some slot =>
    rw [unload_eq st hidx] at hu
    simp only [Option.some.injEq] at hu
    by_cases hne : st.image_slot_state slot ≠ EMPTY_SLOT
    · rw [if_pos hne] at hu
      subst hu
      obtain ⟨hr, hc⟩ := hb
      have hst : ({ image_slot_state := st.image_slot_state, trace := st.trace } : State) = st := rfl
      constructor
      · simp only
        rw [replay_append, hr, held_update _ _ st.trace]
        have hheld : State.held st slot = true := by
          simp [State.held, hne]
        simp [replay, hheld, hst]
      · have hcount := loadedCount_update st.image_slot_state
          (st.trace ++ [SdkCall.layer_remove_from_parent slot, SdkCall.bmp_deinit_container slot])
          st.trace slot EMPTY_SLOT
        rw [hst] at hcount
        simp only [acquired_append, released_append, acquired, released]
        simp only [occupied, hne, ne_eq, not_true_eq_false, not_false_eq_true, if_true,
          if_false] at hcount
        omega
    · rw [if_neg hne] at hu
      subst hu
      exact hb

/-- A property of the state kept by every load and every unload is kept by
the loop of `display_value`. -/
theorem display_value_loop_keeps (P : State → Prop)
    (hl : ∀ s d st, P st → P (load_digit_image_into_slot s d st))
    (hu : ∀ s st st1, P st → unload_digit_image_from_slot s st = some st1 → P st1)
    (row_number : Nat) (show_first_leading_zero : Bool) :
    ∀ (n value : Nat) (st st1 : State), P st →
      display_value_loop row_number show_first_leading_zero n value st = some st1 → P st1 := by
  intro n
  induction n with
  | zero =>
    intro value st st1 hp h
    simp only [display_value_loop, Option.some.injEq] at h
    subst h
    exact hp
  | succ c ih =>
    intro value st st1 hp h
    rw [display_value_loop_succ] at h
    cases hun : unload_digit_image_from_slot (((row_number : Int) * 2) + (c : Int)) st with
    | none =>
      rw [hun] at h
      simp at h
    | some st2 =>
      rw [hun] at h
      simp only at h
      refine ih _ _ _ ?_ h
      split
      · exact hl _ _ _ (hu _ _ _ hp hun)
      · exact hu _ _ _ hp hun

theorem display_time_keeps (P : State → Prop)
    (hl : ∀ s d st, P st → P (load_digit_image_into_slot s d st))
    (hu : ∀ s st st1, P st → unload_digit_image_from_slot s st = some st1 → P st1)
    (tm_hour tm_min : Int) (clock_is_24h_style : Bool) (st st2 : State) (hp : P st)
    (h : display_time tm_hour tm_min clock_is_24h_style st = some st2) : P st2 := by
  unfold display_time at h
  cases hv : display_value (get_display_hour clock_is_24h_style (toUShort tm_hour)) 0 false st with
  | none =>
    rw [hv] at h
    simp at h
  | some st1 =>
    rw [hv] at h
    simp only at h
    exact display_value_loop_keeps P hl hu _ _ _ _ _ _
      (display_value_loop_keeps P hl hu _ _ _ _ _ _ hp hv) h

theorem step_keeps (P : State → Prop)
    (hl : ∀ s d st, P st → P (load_digit_image_into_slot s d st))
    (hu : ∀ s st st1, P st → unload_digit_image_from_slot s st = some st1 → P st1)
    (op : Op) (st st1 : State) (hp : P st) (h : op.step st = some st1) : P st1 := by
  cases op with
  | load s d =>
    simp only [Op.step, Option.some.injEq] at h
    subst h
    exact hl _ _ _ hp
  | unload s => exact hu _ _ _ hp h
  | display_value v r f => exact display_value_loop_keeps P hl hu _ _ _ _ _ _ hp h
  | display_time a b c => exact display_time_keeps P hl hu _ _ _ _ _ hp h

theorem run_keeps (P : State → Prop)
    (hl : ∀ s d st, P st → P (load_digit_image_into_slot s d st))
    (hu : ∀ s st st1, P st → unload_digit_image_from_slot s st = some st1 → P st1)
    (ops : List Op) : ∀ (st st1 : State), P st → run ops st = some st1 → P st1 := by
  induction ops with
  | nil =>
    intro st st1 hp h
    simp only [run, Option.some.injEq] at h
    subst h
    exact hp
  | cons op ops ih =>
    intro st st1 hp h
    simp only [run] at h
    cases hs : op.step st with
    | none =>
      rw [hs] at h
      simp at h
    | some st2 =>
      rw [hs] at h
      exact ih _ _ (step_keeps P hl hu op st st2 hp hs) h

/-- Admissible calls return. -/
theorem step_returns (op : Op) (st : State) (h : op.admissible = true) :
    ∃ st1, op.step st = some st1 := by
  cases op with
  | load s d => exact ⟨_, rfl⟩
  | unload s =>
    simp only [Op.admissible, decide_eq_true_eq] at h
    obtain ⟨slot, hs⟩ := slotIndex_of_range h.1 h.2
    exact ⟨_, unload_eq st hs⟩
  | display_value v r f =>
    simp only [Op.admissible, decide_eq_true_eq] at h
    obtain ⟨st3, h3, _⟩ := display_value_slots v r f st h
    exact ⟨st3, h3⟩
  | display_time a b c =>
    obtain ⟨st2, h2, _⟩ := display_time_slots a b c st
    exact ⟨st2, h2⟩

theorem run_returns (ops : List Op) (h : ∀ op ∈ ops, op.admissible = true) :
    ∀ st : State, ∃ st1, run ops st = some st1 := by
  induction ops with
  | nil => exact fun st => ⟨st, rfl⟩
  | cons op ops ih =>
    intro st
    obtain ⟨st2, h2⟩ := step_returns op st (h op (List.mem_cons_self _ _))
    obtain ⟨st1, h1⟩ := ih (fun o ho => h o (List.mem_cons_of_mem _ ho)) st2
    refine ⟨st1, ?_⟩
    simp only [run, h2]
    exact h1

theorem run_balanced (ops : List Op) (st : State) (h : run ops State.initial = some st) :
    Balanced st :=
  run_keeps Balanced load_balanced unload_balanced ops _ _ balanced_initial h

theorem loadedCount_le (st : State) : loadedCount st ≤ 4 := by
  rw [loadedCount_eq]
  unfold occupied
  split <;> split <;> split <;> split <;> omega

/-- The loop of `handle_deinit` entered with counter `i` returns; it keeps
every property that unloads keep, empties the slots from `i` on and leaves the
slots below `i` as they were. -/
theorem handle_deinit_loop_spec (P : State → Prop)
    (hu : ∀ s st st1, P st → unload_digit_image_from_slot s st = some st1 → P st1) :
    ∀ (n i : Nat) (st : State), i + n = 4 → P st →
      ∃ st1, handle_deinit_loop i st = some st1 ∧ P st1 ∧
        (∀ s : Fin TOTAL_IMAGE_SLOTS, i ≤ (s : Nat) → st1.image_slot_state s = EMPTY_SLOT) ∧
        (∀ s : Fin TOTAL_IMAGE_SLOTS, (s : Nat) < i → st1.image_slot_state s = st.image_slot_state s) := by
  intro n
  have hT : TOTAL_IMAGE_SLOTS = 4 := rfl
  induction n with
  | zero =>
    intro i st hi hp
    refine ⟨st, ?_, hp, ?_, fun _ _ => rfl⟩
    · rw [handle_deinit_loop, if_neg (by omega)]
    · intro s hs
      have := s.isLt
      omega
  | succ m ih =>
    intro i st hi hp
    have hlt : i < TOTAL_IMAGE_SLOTS := by omega
    have hidx := slotIndex_fin ⟨i, hlt⟩
    have hun := unload_eq st hidx
    have hsl := unload_slots hidx hun
    obtain ⟨st2, h2, hp2, hE, hK⟩ := ih (i + 1) _ (by omega) (hu _ _ _ hp hun)
    refine ⟨st2, ?_, hp2, ?_, ?_⟩
    · rw [handle_deinit_loop, if_pos hlt]
      change (match unload_digit_image_from_slot
        (((⟨i, hlt⟩ : Fin TOTAL_IMAGE_SLOTS) : Nat) : Int) st with
        | none => none
        | some st1 => handle_deinit_loop (i + 1) st1) = some st2
      rw [hun]
      exact h2
    · intro s hs
      by_cases hsi : (s : Nat) = i
      · rw [hK s (by omega), hsl]
        have : s = ⟨i, hlt⟩ := Fin.ext hsi
        rw [this, Function.update_same]
      · exact hE s (by omega)
    · intro s hs
      rw [hK s (by omega), hsl]
      have : s ≠ ⟨i, hlt⟩ := by
        intro hc
        have := congrArg Fin.val hc
        simp at this
        omega
      rw [Function.update_noteq this]

/-! ## The slot manager: load and unload -/

/-- C3: `get_display_hour` returns the hour unchanged in 24h style; in 12h
style it returns 12 when `hour % 12 = 0` and `hour % 12` otherwise; the values
listed in the specification follow. -/
theorem get_display_hour_spec (hour : Nat) :
    get_display_hour true hour = hour ∧
    get_display_hour false hour = (if hour % 12 = 0 then 12 else hour % 12) ∧
    get_display_hour false 0 = 12 ∧ get_display_hour false 13 = 1 ∧
    get_display_hour false 12 = 12 ∧ get_display_hour false 23 = 11 ∧
    get_display_hour true 0 = 0 ∧ get_display_hour true 23 = 23 := by
  refine ⟨rfl, ?_, rfl, rfl, rfl, rfl, rfl, rfl⟩
  unfold get_display_hour
  by_cases h : hour % 12 = 0 <;> simp [h]

/-- C4: a load of digit `d` into an empty slot `s` records the slot as
`Loaded d`, issues exactly the acquisition of the catalog entry of `d`, the
two origin writes and the attachment, acquires one image and releases none,
and leaves the other three slots unchanged, whatever they hold. -/
theorem load_into_empty_slot (s : Fin TOTAL_IMAGE_SLOTS) (d : Fin NUMBER_OF_IMAGES)
    (st : State) (he : st.image_slot_state s = EMPTY_SLOT) :
    slotOf ((load_digit_image_into_slot ((s : Nat) : Int) ((d : Nat) : Int) st).image_slot_state s)
        = SlotState.Loaded ((d : Nat) : Int) ∧
    (load_digit_image_into_slot ((s : Nat) : Int) ((d : Nat) : Int) st).trace =
      st.trace ++
        [ SdkCall.bmp_init_container (IMAGE_RESOURCE_IDS d) s,
          SdkCall.set_frame_origin_x s ((((s : Nat) : Int) % 2) * 72),
          SdkCall.set_frame_origin_y s ((((s : Nat) : Int) / 2) * 64),
          SdkCall.layer_add_child s ] ∧
    acquired (load_digit_image_into_slot ((s : Nat) : Int) ((d : Nat) : Int) st).trace
        = acquired st.trace + 1 ∧
    released (load_digit_image_into_slot ((s : Nat) : Int) ((d : Nat) : Int) st).trace
        = released st.trace ∧
    ∀ s2 : Fin TOTAL_IMAGE_SLOTS, s2 ≠ s →
      (load_digit_image_into_slot ((s : Nat) : Int) ((d : Nat) : Int) st).image_slot_state s2
        = st.image_slot_state s2 := by
  rw [load_success st (slotIndex_fin s) rfl he]
  have hd : ((d : Nat) : Int) ≠ EMPTY_SLOT := by
    unfold EMPTY_SLOT
    omega
  refine ⟨?_, rfl, ?_, ?_, ?_⟩
  · simp [slotOf, hd]
  · simp [acquired_append, acquired]
  · simp [released_append, released]
  · intro s2 h2
    simp [Function.update_noteq h2]

/-- Witness of C4: slot 0 already shows the digit 7 and slot 1 is empty; the
load of 7 into slot 1 succeeds all the same. -/
theorem load_into_empty_slot_witness :
    (load_digit_image_into_slot 0 7 State.initial).image_slot_state 1 = EMPTY_SLOT ∧
    slotOf ((load_digit_image_into_slot 1 7
        (load_digit_image_into_slot 0 7 State.initial)).image_slot_state 1)
      = SlotState.Loaded 7 ∧
    slotOf ((load_digit_image_into_slot 1 7
        (load_digit_image_into_slot 0 7 State.initial)).image_slot_state 0)
      = SlotState.Loaded 7 :=
  ⟨by decide,
   (load_into_empty_slot 1 7 (load_digit_image_into_slot 0 7 State.initial) (by decide)).1,
   by decide⟩

/-- C5: a load is without effect when the slot index is outside `0..3`, or
the digit is outside `0..9`, or the slot already holds an image: the state,
trace included, is the one before the call, so a slot that holds an image
keeps its digit. -/
theorem load_noop (slot_number digit_value : Int) (st : State)
    (h : slot_number < 0 ∨ slot_number ≥ 4 ∨ digit_value < 0 ∨ digit_value > 9 ∨
      ∃ slot, slotIndex slot_number = some slot ∧ st.image_slot_state slot ≠ EMPTY_SLOT) :
    load_digit_image_into_slot slot_number digit_value st = st ∧
    (load_digit_image_into_slot slot_number digit_value st).trace = st.trace ∧
    ∀ s : Fin TOTAL_IMAGE_SLOTS,
      (load_digit_image_into_slot slot_number digit_value st).image_slot_state s
        = st.image_slot_state s := by
  rw [load_refused slot_number digit_value st h]
  exact ⟨rfl, rfl, fun _ => rfl⟩

/-- Witness of C5: slot 2 shows 3; a load of 8 into it changes nothing. -/
theorem load_noop_witness :
    (load_digit_image_into_slot 2 3 State.initial).image_slot_state 2 = 3 ∧
    load_digit_image_into_slot 2 8 (load_digit_image_into_slot 2 3 State.initial)
      = load_digit_image_into_slot 2 3 State.initial :=
  ⟨by decide,
   (load_noop 2 8 (load_digit_image_into_slot 2 3 State.initial)
      (Or.inr (Or.inr (Or.inr (Or.inr ⟨2, by decide, by decide⟩))))).1⟩

/-- C6: an unload of slot `s` returns, leaves slot `s` empty and the other
slots unchanged; on a slot that holds an image it issues exactly one
detachment and one release, on an empty slot it does nothing; a second unload
changes nothing more; and an unload after a load into an empty slot gives back
the slot contents before the load, with one image acquired and one released. -/
theorem unload_spec (s : Fin TOTAL_IMAGE_SLOTS) (st : State) :
    ∃ st1, unload_digit_image_from_slot ((s : Nat) : Int) st = some st1 ∧
      st1.image_slot_state s = EMPTY_SLOT ∧
      (∀ s2 : Fin TOTAL_IMAGE_SLOTS, s2 ≠ s → st1.image_slot_state s2 = st.image_slot_state s2) ∧
      (st.image_slot_state s ≠ EMPTY_SLOT →
        st1.trace = st.trace ++
          [SdkCall.layer_remove_from_parent s, SdkCall.bmp_deinit_container s] ∧
        released st1.trace = released st.trace + 1 ∧ acquired st1.trace = acquired st.trace) ∧
      (st.image_slot_state s = EMPTY_SLOT → st1 = st) ∧
      unload_digit_image_from_slot ((s : Nat) : Int) st1 = some st1 ∧
      (st.image_slot_state s = EMPTY_SLOT → ∀ d : Fin NUMBER_OF_IMAGES,
        ∃ st2, unload_digit_image_from_slot ((s : Nat) : Int)
            (load_digit_image_into_slot ((s : Nat) : Int) ((d : Nat) : Int) st) = some st2 ∧
          st2.image_slot_state = st.image_slot_state ∧
          st2.trace = st.trace ++
            [ SdkCall.bmp_init_container (IMAGE_RESOURCE_IDS d) s,
              SdkCall.set_frame_origin_x s ((((s : Nat) : Int) % 2) * 72),
              SdkCall.set_frame_origin_y s ((((s : Nat) : Int) / 2) * 64),
              SdkCall.layer_add_child s,
              SdkCall.layer_remove_from_parent s,
              SdkCall.bmp_deinit_container s ] ∧
          acquired st2.trace = acquired st.trace + 1 ∧
          released st2.trace = released st.trace + 1) := by
  have hidx := slotIndex_fin s
  refine ⟨_, unload_eq st hidx, ?_, ?_, ?_, ?_, ?_, ?_⟩
  · split
    · simp
    · rename_i he
      simpa using he
  · intro s2 h2
    split
    · simp [Function.update_noteq h2]
    · rfl
  · intro hne
    rw [if_pos hne]
    refine ⟨rfl, ?_, ?_⟩
    · simp [released_append, released]
    · simp [acquired_append, acquired]
  · intro he
    rw [if_neg (by simpa using he)]
  · rw [unload_eq _ hidx]
    congr 1
    by_cases hne : st.image_slot_state s ≠ EMPTY_SLOT
    · simp [hne]
    · simp [hne]
  · intro he d
    have hd : ((d : Nat) : Int) ≠ EMPTY_SLOT := by
      unfold EMPTY_SLOT
      omega
    rw [load_success st hidx rfl he, unload_eq _ hidx]
    refine ⟨_, rfl, ?_, ?_, ?_, ?_⟩
    · simp only [Function.update_same, ne_eq, hd, not_false_eq_true, if_true,
        Function.update_idem]
      rw [← he, Function.update_eq_self]
    · simp [hd]
    · simp [hd, acquired_append, acquired]
    · simp [hd, released_append, released]

/-- Witness of C6: slot 1 shows 5; the unload returns and empties it. -/
theorem unload_spec_witness :
    ∃ st1, unload_digit_image_from_slot 1 (load_digit_image_into_slot 1 5 State.initial)
        = some st1 ∧ st1.image_slot_state 1 = EMPTY_SLOT := by
  obtain ⟨st1, h1, h2, _⟩ := unload_spec 1 (load_digit_image_into_slot 1 5 State.initial)
  exact ⟨st1, h1, h2⟩

/-- Counterexample to C7 as stated: a load into slot 0 of the empty display
writes the origin (0, 0); a load into slot 2 writes the vertical origin 64,
and a load into slot 3 does the same.  The write of `(2 / 2) * 84` that the
claim gives for slot 2 is not in the trace, and the lower row starts inside
the 84 units of height that the claim gives to the upper row. -/
theorem load_origin_lower_row :
    (load_digit_image_into_slot 0 7 State.initial).trace =
      [ SdkCall.bmp_init_container ResourceId.RESOURCE_ID_IMAGE_NUM_7 0,
        SdkCall.set_frame_origin_x 0 0,
        SdkCall.set_frame_origin_y 0 0,
        SdkCall.layer_add_child 0 ] ∧
    (load_digit_image_into_slot 2 7 State.initial).trace =
      [ SdkCall.bmp_init_container ResourceId.RESOURCE_ID_IMAGE_NUM_7 2,
        SdkCall.set_frame_origin_x 2 0,
        SdkCall.set_frame_origin_y 2 64,
        SdkCall.layer_add_child 2 ] ∧
    (load_digit_image_into_slot 3 7 State.initial).trace =
      [ SdkCall.bmp_init_container ResourceId.RESOURCE_ID_IMAGE_NUM_7 3,
        SdkCall.set_frame_origin_x 3 72,
        SdkCall.set_frame_origin_y 3 64,
        SdkCall.layer_add_child 3 ] ∧
    SdkCall.set_frame_origin_y 2 ((2 / 2) * 84) ∉
      (load_digit_image_into_slot 2 7 State.initial).trace ∧
    (64 : Int) ≠ (2 / 2) * 84 ∧ (64 : Int) < 0 + 84 := by
  decide

/-- C7 as amended: a load of a digit `d` into an empty slot `s` writes the
origin `x = (s % 2) * 72`, `y = (s / 2) * 64`, which depends on `s` alone.  The
cells of 72 by 64 units at the origins of two different slots do not overlap;
each lies in the 144 units of width of the date frame and above its upper
edge, which the lower row of cells meets at `y = 128`. -/
theorem load_origin_grid (s : Fin TOTAL_IMAGE_SLOTS) (d : Fin NUMBER_OF_IMAGES)
    (st : State) (he : st.image_slot_state s = EMPTY_SLOT) :
    (load_digit_image_into_slot ((s : Nat) : Int) ((d : Nat) : Int) st).trace =
      st.trace ++
        [ SdkCall.bmp_init_container (IMAGE_RESOURCE_IDS d) s,
          SdkCall.set_frame_origin_x s ((((s : Nat) : Int) % 2) * 72),
          SdkCall.set_frame_origin_y s ((((s : Nat) : Int) / 2) * 64),
          SdkCall.layer_add_child s ] ∧
    (∀ s2 : Fin TOTAL_IMAGE_SLOTS, s2 ≠ s →
      (((s : Nat) : Int) % 2) * 72 + 72 ≤ (((s2 : Nat) : Int) % 2) * 72 ∨
      (((s2 : Nat) : Int) % 2) * 72 + 72 ≤ (((s : Nat) : Int) % 2) * 72 ∨
      (((s : Nat) : Int) / 2) * 64 + 64 ≤ (((s2 : Nat) : Int) / 2) * 64 ∨
      (((s2 : Nat) : Int) / 2) * 64 + 64 ≤ (((s : Nat) : Int) / 2) * 64) ∧
    (0 ≤ (((s : Nat) : Int) % 2) * 72 ∧ (((s : Nat) : Int) % 2) * 72 + 72 ≤ DATE_FRAME.2.2.1) ∧
    (0 ≤ (((s : Nat) : Int) / 2) * 64 ∧ (((s : Nat) : Int) / 2) * 64 + 64 ≤ DATE_FRAME.2.1) ∧
    ((3 : Int) / 2) * 64 + 64 = DATE_FRAME.2.1 := by
  have hs : s = 0 ∨ s = 1 ∨ s = 2 ∨ s = 3 := by
    fin_cases s <;> decide
  refine ⟨?_, ?_, ?_, ?_, by decide⟩
  · rw [load_success st (slotIndex_fin s) rfl he]
  · intro s2 hne
    have hs2 : s2 = 0 ∨ s2 = 1 ∨ s2 = 2 ∨ s2 = 3 := by
      fin_cases s2 <;> decide
    rcases hs with rfl | rfl | rfl | rfl <;> rcases hs2 with rfl | rfl | rfl | rfl <;>
      first
        | exact absurd rfl hne
        | decide
  · rcases hs with rfl | rfl | rfl | rfl <;> decide
  · rcases hs with rfl | rfl | rfl | rfl <;> decide

/-- Witness of C7 as amended: the load of 7 into slot 2 of the empty display
writes the origin (0, 64). -/
theorem load_origin_grid_witness :
    State.initial.image_slot_state 2 = EMPTY_SLOT ∧
    (load_digit_image_into_slot 2 7 State.initial).trace =
      [ SdkCall.bmp_init_container ResourceId.RESOURCE_ID_IMAGE_NUM_7 2,
        SdkCall.set_frame_origin_x 2 0,
        SdkCall.set_frame_origin_y 2 64,
        SdkCall.layer_add_child 2 ] :=
  ⟨by decide, (load_origin_grid 2 7 State.initial (by decide)).1⟩

/-! ## The digit renderer -/

/-- C2: for a value in `0..99` on row 0 or 1, `display_value` returns; then
the ones slot `2 * row + 1` shows `value % 10`, and the tens slot `2 * row`
shows `value / 10` when that digit is not 0 or `show_first_leading_zero` is
set, and is empty otherwise. -/
theorem display_value_spec (value row_number : Nat) (show_first_leading_zero : Bool)
    (st : State) (hv : value ≤ 99) (hr : row_number ≤ 1) :
    ∃ st3, display_value value row_number show_first_leading_zero st = some st3 ∧
      slotOf (st3.image_slot_state ⟨2 * row_number + 1, by show 2 * row_number + 1 < 4; omega⟩)
        = SlotState.Loaded ((value % 10 : Nat) : Int) ∧
      slotOf (st3.image_slot_state ⟨2 * row_number, by show 2 * row_number < 4; omega⟩)
        = (if value / 10 ≠ 0 ∨ show_first_leading_zero = true
            then SlotState.Loaded ((value / 10 : Nat) : Int) else SlotState.Empty) := by
  obtain ⟨st3, hv3, e3⟩ := display_value_slots value row_number show_first_leading_zero st hr
  have h100 : value % 100 = value := Nat.mod_eq_of_lt (by omega)
  rw [h100] at e3
  refine ⟨st3, hv3, ?_, ?_⟩
  · rw [e3]
    have hne : (⟨2 * row_number + 1, by show 2 * row_number + 1 < 4; omega⟩ :
        Fin TOTAL_IMAGE_SLOTS) ≠ ⟨2 * row_number, by show 2 * row_number < 4; omega⟩ := by
      intro hc
      have := congrArg Fin.val hc
      simp at this
    rw [Function.update_noteq hne, Function.update_same, slotOf_natCast]
  · rw [e3, Function.update_same]
    by_cases hz : value / 10 = 0 ∧ show_first_leading_zero = false
    · rw [if_pos hz, if_neg (by simp [hz.1, hz.2]), slotOf_empty]
    · rw [if_neg hz, slotOf_natCast, if_pos]
      by_cases h0 : value / 10 = 0
      · right
        cases show_first_leading_zero
        · exact absurd ⟨h0, rfl⟩ hz
        · rfl
      · exact Or.inl h0

/-- Witness of C2: the value 0 on row 0 with the leading zero blanked leaves
the tens slot empty and shows 0 in the ones slot. -/
theorem display_value_spec_witness :
    (0 ≤ 99 ∧ 0 ≤ 1) ∧
    ∃ st3, display_value 0 0 false State.initial = some st3 ∧
      slotOf (st3.image_slot_state 1) = SlotState.Loaded 0 ∧
      slotOf (st3.image_slot_state 0) = SlotState.Empty :=
  ⟨by decide, display_value_spec 0 0 false State.initial (by decide) (by decide)⟩

/-- C1: for an hour in `0..23` and a minute in `0..59`, in either style and
from any state, `display_time` returns; then slot 1 shows `dh % 10`, slot 0
shows `dh / 10` when `dh ≥ 10` and is empty otherwise, slot 2 shows
`minute / 10` and slot 3 shows `minute % 10`, where `dh` is the result of
`get_display_hour` on the hour. -/
theorem display_time_spec (hour minute : Nat) (clock_is_24h_style : Bool) (st : State)
    (hh : hour ≤ 23) (hm : minute ≤ 59) :
    ∃ st2, display_time (hour : Int) (minute : Int) clock_is_24h_style st = some st2 ∧
      st2.slots =
        [ (if 10 ≤ get_display_hour clock_is_24h_style hour
            then SlotState.Loaded ((get_display_hour clock_is_24h_style hour / 10 : Nat) : Int)
            else SlotState.Empty),
          SlotState.Loaded ((get_display_hour clock_is_24h_style hour % 10 : Nat) : Int),
          SlotState.Loaded ((minute / 10 : Nat) : Int),
          SlotState.Loaded ((minute % 10 : Nat) : Int) ] := by
  obtain ⟨st2, hv, e0, e1, e2, e3⟩ :=
    display_time_slots (hour : Int) (minute : Int) clock_is_24h_style st
  rw [toUShort_natCast (show hour < 65536 by omega)] at e0 e1
  rw [toUShort_natCast (show minute < 65536 by omega)] at e2 e3
  have hdh : get_display_hour clock_is_24h_style hour ≤ 23 := by
    unfold get_display_hour
    split
    · exact hh
    · simp only
      split <;> omega
  have hdh100 : get_display_hour clock_is_24h_style hour % 100
      = get_display_hour clock_is_24h_style hour := Nat.mod_eq_of_lt (by omega)
  have hm100 : minute % 100 = minute := Nat.mod_eq_of_lt (by omega)
  rw [hdh100] at e0 e1
  rw [hm100] at e2 e3
  refine ⟨st2, hv, ?_⟩
  unfold State.slots
  rw [e0, e1, e2, e3, slotOf_natCast, slotOf_natCast, slotOf_natCast]
  congr 1
  by_cases h10 : 10 ≤ get_display_hour clock_is_24h_style hour
  · rw [if_neg (by omega), if_pos h10, slotOf_natCast]
  · rw [if_pos (by omega), if_neg h10, slotOf_empty]

/-- Witness of C1: 9:05 in 12h style shows blank, 9, 0, 5; 0:30 in 12h style
shows 1, 2, 3, 0; 5:00 in 24h style leaves slot 0 empty and shows 5 in
slot 1. -/
theorem display_time_spec_witness :
    (9 ≤ 23 ∧ 5 ≤ 59) ∧
    (∃ st2, display_time 9 5 false State.initial = some st2 ∧
      st2.slots = [SlotState.Empty, SlotState.Loaded 9, SlotState.Loaded 0,
        SlotState.Loaded 5]) ∧
    (∃ st2, display_time 0 30 false State.initial = some st2 ∧
      st2.slots = [SlotState.Loaded 1, SlotState.Loaded 2, SlotState.Loaded 3,
        SlotState.Loaded 0]) ∧
    (∃ st2, display_time 5 0 true State.initial = some st2 ∧
      st2.slots = [SlotState.Empty, SlotState.Loaded 5, SlotState.Loaded 0,
        SlotState.Loaded 0]) :=
  ⟨by decide,
   display_time_spec 9 5 false State.initial (by decide) (by decide),
   display_time_spec 0 30 false State.initial (by decide) (by decide),
   display_time_spec 5 0 true State.initial (by decide) (by decide)⟩

/-- C9: running `display_time` twice in a row with the same time and style
returns both times, and the second run leaves exactly the slot contents of
the first. -/
theorem display_time_idempotent (tm_hour tm_min : Int) (clock_is_24h_style : Bool)
    (st : State) :
    ∃ st1 st2, display_time tm_hour tm_min clock_is_24h_style st = some st1 ∧
      display_time tm_hour tm_min clock_is_24h_style st1 = some st2 ∧
      st2.image_slot_state = st1.image_slot_state ∧ st2.slots = st1.slots := by
  obtain ⟨st1, hv1, a0, a1, a2, a3⟩ := display_time_slots tm_hour tm_min clock_is_24h_style st
  obtain ⟨st2, hv2, b0, b1, b2, b3⟩ := display_time_slots tm_hour tm_min clock_is_24h_style st1
  have heq : st2.image_slot_state = st1.image_slot_state := by
    funext s
    fin_cases s
    · exact b0.trans a0.symm
    · exact b1.trans a1.symm
    · exact b2.trans a2.symm
    · exact b3.trans a3.symm
  refine ⟨st1, st2, hv1, hv2, heq, ?_⟩
  unfold State.slots
  rw [heq]

/-! ## Accounting over whole runs -/

/-- C8: every sequence of loads, unloads with an index in `0..3`,
`display_value` calls with a row in `0..1` and `display_time` calls, started
in the initial state, returns; in the state reached the images acquired and
not released are as many as the loaded slots, at most 4; and the trace never
acquires into a container that still holds an image and never releases a
container that holds none, the containers left holding an image being the
loaded slots. -/
theorem resident_images_invariant (ops : List Op) (h : ∀ op ∈ ops, op.admissible = true) :
    ∃ st, run ops State.initial = some st ∧
      acquired st.trace = released st.trace + loadedCount st ∧
      loadedCount st ≤ 4 ∧
      replay st.trace (fun _ => false) = some st.held := by
  obtain ⟨st, hst⟩ := run_returns ops h State.initial
  obtain ⟨hr, hc⟩ := run_balanced ops st hst
  exact ⟨st, hst, hc, loadedCount_le st, hr⟩

/-- Witness of C8: a tick at 9:05, a refused load, an unload and a
`display_value` on the minute row. -/
theorem resident_images_invariant_witness :
    (∀ op ∈ [Op.display_time 9 5 false, Op.load 1 3, Op.unload 1, Op.display_value 42 1 false],
      op.admissible = true) ∧
    ∃ st, run [Op.display_time 9 5 false, Op.load 1 3, Op.unload 1, Op.display_value 42 1 false]
        State.initial = some st ∧
      acquired st.trace = released st.trace + loadedCount st ∧
      loadedCount st ≤ 4 ∧
      replay st.trace (fun _ => false) = some st.held :=
  ⟨by decide,
   resident_images_invariant
     [Op.display_time 9 5 false, Op.load 1 3, Op.unload 1, Op.display_value 42 1 false]
     (by decide)⟩

/-- An unload with an index in `0..3`, in closed form. -/
theorem unload_fin (s : Fin TOTAL_IMAGE_SLOTS) (st : State) :
    unload_digit_image_from_slot ((s : Nat) : Int) st =
      some
        { image_slot_state := Function.update st.image_slot_state s EMPTY_SLOT
          trace := st.trace ++
            (if st.image_slot_state s ≠ EMPTY_SLOT then
              [SdkCall.layer_remove_from_parent s, SdkCall.bmp_deinit_container s]
            else []) } := by
  rw [unload_eq st (slotIndex_fin s)]
  congr 1
  by_cases hne : st.image_slot_state s ≠ EMPTY_SLOT
  · rw [if_pos hne, if_pos hne]
  · rw [if_neg hne, if_neg hne]
    have he : st.image_slot_state s = EMPTY_SLOT := not_not.mp hne
    cases st with
    | mk f t =>
      simp only at he
      simp only [List.append_nil]
      rw [← he, Function.update_eq_self]

/-- One turn of the loop of `handle_deinit`. -/
theorem handle_deinit_loop_step (i : Nat) (hlt : i < TOTAL_IMAGE_SLOTS) (st : State) :
    handle_deinit_loop i st =
      handle_deinit_loop (i + 1)
        { image_slot_state := Function.update st.image_slot_state ⟨i, hlt⟩ EMPTY_SLOT
          trace := st.trace ++
            (if st.image_slot_state ⟨i, hlt⟩ ≠ EMPTY_SLOT then
              [SdkCall.layer_remove_from_parent ⟨i, hlt⟩, SdkCall.bmp_deinit_container ⟨i, hlt⟩]
            else []) } := by
  conv_lhs => rw [handle_deinit_loop]
  rw [if_pos hlt]
  change (match unload_digit_image_from_slot
    (((⟨i, hlt⟩ : Fin TOTAL_IMAGE_SLOTS) : Nat) : Int) st with
    | none => none
    | some st1 => handle_deinit_loop (i + 1) st1) = _
  rw [unload_fin]

/-- The result of `handle_deinit`, in closed form: the four entries are
`EMPTY_SLOT`, and the trace grows by the detachment and release of each slot
that held an image, in the order of the slots, and by the release of the
font. -/
theorem handle_deinit_eq (st : State) :
    handle_deinit st =
      some
        { image_slot_state := fun _ => EMPTY_SLOT
          trace := st.trace ++
            (if st.image_slot_state 0 ≠ EMPTY_SLOT then
              [SdkCall.layer_remove_from_parent 0, SdkCall.bmp_deinit_container 0] else []) ++
            (if st.image_slot_state 1 ≠ EMPTY_SLOT then
              [SdkCall.layer_remove_from_parent 1, SdkCall.bmp_deinit_container 1] else []) ++
            (if st.image_slot_state 2 ≠ EMPTY_SLOT then
              [SdkCall.layer_remove_from_parent 2, SdkCall.bmp_deinit_container 2] else []) ++
            (if st.image_slot_state 3 ≠ EMPTY_SLOT then
              [SdkCall.layer_remove_from_parent 3, SdkCall.bmp_deinit_container 3] else []) ++
            [SdkCall.fonts_unload_custom_font] } := by
  have h0 : (⟨0, by decide⟩ : Fin TOTAL_IMAGE_SLOTS) = 0 := rfl
  have h1 : (⟨0 + 1, by decide⟩ : Fin TOTAL_IMAGE_SLOTS) = 1 := rfl
  have h2 : (⟨0 + 1 + 1, by decide⟩ : Fin TOTAL_IMAGE_SLOTS) = 2 := rfl
  have h3 : (⟨0 + 1 + 1 + 1, by decide⟩ : Fin TOTAL_IMAGE_SLOTS) = 3 := rfl
  have n10 : (1 : Fin TOTAL_IMAGE_SLOTS) ≠ 0 := by decide
  have n20 : (2 : Fin TOTAL_IMAGE_SLOTS) ≠ 0 := by decide
  have n21 : (2 : Fin TOTAL_IMAGE_SLOTS) ≠ 1 := by decide
  have n30 : (3 : Fin TOTAL_IMAGE_SLOTS) ≠ 0 := by decide
  have n31 : (3 : Fin TOTAL_IMAGE_SLOTS) ≠ 1 := by decide
  have n32 : (3 : Fin TOTAL_IMAGE_SLOTS) ≠ 2 := by decide
  have hdone : ∀ st4 : State, handle_deinit_loop (0 + 1 + 1 + 1 + 1) st4 = some st4 := by
    intro st4
    rw [handle_deinit_loop, if_neg (by decide)]
  unfold handle_deinit
  rw [handle_deinit_loop_step 0 (by decide), handle_deinit_loop_step (0 + 1) (by decide),
    handle_deinit_loop_step (0 + 1 + 1) (by decide),
    handle_deinit_loop_step (0 + 1 + 1 + 1) (by decide), hdone]
  simp only [h0, h1, h2, h3, Function.update_noteq n10, Function.update_noteq n20,
    Function.update_noteq n21, Function.update_noteq n30, Function.update_noteq n31,
    Function.update_noteq n32]
  congr 2
  funext s
  have hs : s = 0 ∨ s = 1 ∨ s = 2 ∨ s = 3 := by
    fin_cases s <;> decide
  rcases hs with rfl | rfl | rfl | rfl
  · rw [Function.update_noteq n30.symm, Function.update_noteq n20.symm,
      Function.update_noteq n10.symm, Function.update_same]
  · rw [Function.update_noteq n31.symm, Function.update_noteq n21.symm, Function.update_same]
  · rw [Function.update_noteq n32.symm, Function.update_same]
  · rw [Function.update_same]

/-- C10: from every state reached from the initial state, `handle_deinit`
returns; afterwards the four slots are empty; the trace is the one before
teardown followed by the detachment and release of each slot that held an
image, in the order of the slots, and by the release of the font, so no image
is acquired and as many are released as slots were loaded; as many images
have then been released as were ever acquired, and the whole trace released
each container only while it held an image and leaves no container holding
one. -/
theorem handle_deinit_spec (st : State) (h : Reachable st) :
    ∃ st1, handle_deinit st = some st1 ∧
      (∀ s : Fin TOTAL_IMAGE_SLOTS, st1.image_slot_state s = EMPTY_SLOT) ∧
      st1.slots = [SlotState.Empty, SlotState.Empty, SlotState.Empty, SlotState.Empty] ∧
      loadedCount st1 = 0 ∧
      acquired st1.trace = released st1.trace ∧
      replay st1.trace (fun _ => false) = some (fun _ => false) ∧
      st1.trace = st.trace ++
        (if st.image_slot_state 0 ≠ EMPTY_SLOT then
          [SdkCall.layer_remove_from_parent 0, SdkCall.bmp_deinit_container 0] else []) ++
        (if st.image_slot_state 1 ≠ EMPTY_SLOT then
          [SdkCall.layer_remove_from_parent 1, SdkCall.bmp_deinit_container 1] else []) ++
        (if st.image_slot_state 2 ≠ EMPTY_SLOT then
          [SdkCall.layer_remove_from_parent 2, SdkCall.bmp_deinit_container 2] else []) ++
        (if st.image_slot_state 3 ≠ EMPTY_SLOT then
          [SdkCall.layer_remove_from_parent 3, SdkCall.bmp_deinit_container 3] else []) ++
        [SdkCall.fonts_unload_custom_font] ∧
      acquired st1.trace = acquired st.trace ∧
      released st1.trace = released st.trace + loadedCount st := by
  obtain ⟨ops, _, hrun⟩ := h
  have hb := run_balanced ops st hrun
  obtain ⟨st4, h4, ⟨hr, hc⟩, hE, _⟩ :=
    handle_deinit_loop_spec Balanced unload_balanced 4 0 st rfl hb
  have hall : ∀ s : Fin TOTAL_IMAGE_SLOTS, st4.image_slot_state s = EMPTY_SLOT :=
    fun s => hE s (Nat.zero_le _)
  have hcount : loadedCount st4 = 0 := by
    rw [loadedCount_eq]
    simp [occupied, hall]
  have hheld : st4.held = fun _ => false := by
    funext s
    simp [State.held, hall]
  have hres : handle_deinit st =
      some { st4 with trace := st4.trace ++ [SdkCall.fonts_unload_custom_font] } := by
    unfold handle_deinit
    rw [h4]
  have htrace := hres.symm.trans (handle_deinit_eq st)
  simp only [Option.some.injEq] at htrace
  have htr := congrArg State.trace htrace
  simp only at htr
  have hacq : acquired (st4.trace ++ [SdkCall.fonts_unload_custom_font]) = acquired st.trace := by
    rw [htr]
    simp only [acquired_append]
    split_ifs <;> simp [acquired]
  have hrel : released (st4.trace ++ [SdkCall.fonts_unload_custom_font])
      = released st.trace + loadedCount st := by
    rw [htr, loadedCount_eq]
    simp only [released_append, occupied]
    split_ifs <;> simp [released]
  refine ⟨{ st4 with trace := st4.trace ++ [SdkCall.fonts_unload_custom_font] }, hres, hall, ?_,
    ?_, ?_, ?_, htr, hacq, hrel⟩
  · simp [State.slots, hall, slotOf]
  · rw [loadedCount_eq]
    simp [occupied, hall]
  · simp only [acquired_append, released_append, acquired, released]
    omega
  · simp only
    rw [replay_append, hr, hheld]
    rfl

/-- Witness of C10: the state after a load of 3 into slot 2 is reached from
the initial state; teardown empties it and appends the detachment and release
of container 2 and the release of the font. -/
theorem handle_deinit_spec_witness :
    Reachable (load_digit_image_into_slot 2 3 State.initial) ∧
    ∃ st1, handle_deinit (load_digit_image_into_slot 2 3 State.initial) = some st1 ∧
      (∀ s : Fin TOTAL_IMAGE_SLOTS, st1.image_slot_state s = EMPTY_SLOT) ∧
      st1.slots = [SlotState.Empty, SlotState.Empty, SlotState.Empty, SlotState.Empty] ∧
      loadedCount st1 = 0 ∧
      acquired st1.trace = released st1.trace ∧
      replay st1.trace (fun _ => false) = some (fun _ => false) ∧
      st1.trace = (load_digit_image_into_slot 2 3 State.initial).trace ++
        [SdkCall.layer_remove_from_parent 2, SdkCall.bmp_deinit_container 2,
         SdkCall.fonts_unload_custom_font] ∧
      acquired st1.trace = acquired (load_digit_image_into_slot 2 3 State.initial).trace ∧
      released st1.trace = released (load_digit_image_into_slot 2 3 State.initial).trace
        + loadedCount (load_digit_image_into_slot 2 3 State.initial) :=
  ⟨⟨[Op.load 2 3], by decide, rfl⟩,
   handle_deinit_spec (load_digit_image_into_slot 2 3 State.initial)
     ⟨[Op.load 2 3], by decide, rfl⟩⟩

/-! ## Further facts used below -/

theorem run_append (a b : List Op) (st : State) :
    run (a ++ b) st = (run a st).bind (run b) := by
  induction a generalizing st with
  | nil => rfl
  | cons op ops ih =>
    simp only [List.cons_append, run]
    cases op.step st with
    | none => rfl
    | some st1 => exact ih st1

/-- The loop of `display_value` carries out the calls it issues, one after
the other. -/
theorem display_value_loop_run (row_number : Nat) (show_first_leading_zero : Bool) :
    ∀ (n value : Nat) (st : State),
      display_value_loop row_number show_first_leading_zero n value st =
        run (display_value_loop_calls row_number show_first_leading_zero n value) st := by
  intro n
  induction n with
  | zero => intro value st; rfl
  | succ c ih =>
    intro value st
    rw [display_value_loop_succ]
    simp only [display_value_loop_calls, List.append_assoc, List.singleton_append, run, Op.step]
    cases unload_digit_image_from_slot (((row_number : Int) * 2) + (c : Int)) st with
    | none => rfl
    | some st1 =>
      simp only
      by_cases hz : value = 0 ∧ c = 0 ∧ show_first_leading_zero = false
      · rw [if_neg (not_not.mpr hz), if_neg (not_not.mpr hz)]
        exact ih _ _
      · rw [if_pos hz, if_pos hz]
        simp only [List.singleton_append, run, Op.step]
        exact ih _ _

theorem display_value_run (value row_number : Nat) (show_first_leading_zero : Bool)
    (st : State) :
    display_value value row_number show_first_leading_zero st =
      run (display_value_calls value row_number show_first_leading_zero) st :=
  display_value_loop_run row_number show_first_leading_zero 2 (value % 100) st

/-- The calls issued by `display_value`, written out. -/
theorem display_value_calls_eq (value row_number : Nat) (show_first_leading_zero : Bool) :
    display_value_calls value row_number show_first_leading_zero =
      [ Op.unload (((row_number : Int) * 2) + ((1 : Nat) : Int)),
        Op.load (((row_number : Int) * 2) + ((1 : Nat) : Int)) ((value % 100 % 10 : Nat) : Int),
        Op.unload (((row_number : Int) * 2) + ((0 : Nat) : Int)) ] ++
      (if value % 100 / 10 = 0 ∧ show_first_leading_zero = false then []
        else [Op.load (((row_number : Int) * 2) + ((0 : Nat) : Int))
          ((value % 100 / 10 % 10 : Nat) : Int)]) := by
  unfold display_value_calls
  simp only [display_value_loop_calls, Nat.succ_ne_zero, one_ne_zero, false_and, and_false,
    not_false_eq_true, if_true, true_and, List.append_nil, List.singleton_append,
    List.cons_append, List.nil_append]
  by_cases hz : value % 100 / 10 = 0 ∧ show_first_leading_zero = false
  · rw [if_neg (not_not.mpr hz), if_pos hz]
  · rw [if_pos hz, if_neg hz]

theorem validSlots_initial : ValidSlots State.initial :=
  fun _ => Or.inl rfl

theorem load_validSlots (slot_number digit_value : Int) (st : State) (hv : ValidSlots st) :
    ValidSlots (load_digit_image_into_slot slot_number digit_value st) := by
  by_cases h : slot_number < 0 ∨ slot_number ≥ 4 ∨ digit_value < 0 ∨ digit_value > 9 ∨
      ∃ slot, slotIndex slot_number = some slot ∧ st.image_slot_state slot ≠ EMPTY_SLOT
  · rw [load_refused slot_number digit_value st h]
    exact hv
  · simp only [not_or, not_exists, not_and, not_lt, ge_iff_le, not_le, gt_iff_lt, ne_eq,
      not_not] at h
    obtain ⟨h0, h4, hd0, hd9, he⟩ := h
    obtain ⟨slot, hs⟩ := slotIndex_of_range h0 h4
    have hdig : ((((⟨digit_value.toNat, by show digit_value.toNat < 10; omega⟩ :
        Fin NUMBER_OF_IMAGES) : Nat) : Int)) = digit_value := by
      show ((digit_value.toNat : Nat) : Int) = digit_value
      omega
    rw [load_success st hs hdig (he slot hs)]
    intro s
    by_cases hss : s = slot
    · subst hss
      simp only [Function.update_same]
      exact Or.inr ⟨hd0, hd9⟩
    · simp only [Function.update_noteq hss]
      exact hv s

theorem unload_validSlots (slot_number : Int) (st st1 : State) (hv : ValidSlots st)
    (hu : unload_digit_image_from_slot slot_number st = some st1) : ValidSlots st1 := by
  cases hidx : slotIndex slot_number with
  | none =>
    unfold unload_digit_image_from_slot at hu
    rw [hidx] at hu
    simp at hu
  | some slot =>
    have hsl := unload_slots hidx hu
    intro s
    rw [hsl]
    by_cases hss : s = slot
    · subst hss
      rw [Function.update_same]
      exact Or.inl rfl
    · simp only [Function.update_noteq hss]
      exact hv s

/-- The effects of a load all act on the container of its slot. -/
theorem load_trace (slot_number digit_value : Int) (st : State) :
    ∃ l, (load_digit_image_into_slot slot_number digit_value st).trace = st.trace ++ l ∧
      ∀ c ∈ l, c.slot = slotIndex slot_number := by
  by_cases h : slot_number < 0 ∨ slot_number ≥ 4 ∨ digit_value < 0 ∨ digit_value > 9 ∨
      ∃ slot, slotIndex slot_number = some slot ∧ st.image_slot_state slot ≠ EMPTY_SLOT
  · rw [load_refused slot_number digit_value st h]
    exact ⟨[], by simp, by simp⟩
  · simp only [not_or, not_exists, not_and, not_lt, ge_iff_le, not_le, gt_iff_lt, ne_eq,
      not_not] at h
    obtain ⟨h0, h4, hd0, hd9, he⟩ := h
    obtain ⟨slot, hs⟩ := slotIndex_of_range h0 h4
    have hdig : ((((⟨digit_value.toNat, by show digit_value.toNat < 10; omega⟩ :
        Fin NUMBER_OF_IMAGES) : Nat) : Int)) = digit_value := by
      show ((digit_value.toNat : Nat) : Int) = digit_value
      omega
    rw [load_success st hs hdig (he slot hs), hs]
    refine ⟨_, rfl, ?_⟩
    intro c hc
    simp only [List.mem_cons, List.mem_singleton, List.not_mem_nil, or_false] at hc
    rcases hc with rfl | rfl | rfl | rfl <;> rfl

/-- The effects of an unload all act on the container of its slot. -/
theorem unload_trace (slot_number : Int) (st st1 : State)
    (hu : unload_digit_image_from_slot slot_number st = some st1) :
    ∃ l, st1.trace = st.trace ++ l ∧ ∀ c ∈ l, c.slot = slotIndex slot_number := by
  cases hidx : slotIndex slot_number with
  | none =>
    unfold unload_digit_image_from_slot at hu
    rw [hidx] at hu
    simp at hu
  | some slot =>
    rw [unload_eq st hidx] at hu
    simp only [Option.some.injEq] at hu
    subst hu
    by_cases hne : st.image_slot_state slot ≠ EMPTY_SLOT
    · rw [if_pos hne]
      refine ⟨_, rfl, ?_⟩
      intro c hc
      simp only [List.mem_cons, List.mem_singleton, List.not_mem_nil, or_false] at hc
      rcases hc with rfl | rfl <;> rfl
    · rw [if_neg hne]
      exact ⟨[], by simp, by simp⟩

/-- The effects of `display_value` on a row of the display all act on the
containers of the two slots of the row. -/
theorem display_value_trace (value row_number : Nat) (show_first_leading_zero : Bool)
    (st : State) (h : row_number ≤ 1) :
    ∃ st3 l, display_value value row_number show_first_leading_zero st = some st3 ∧
      st3.trace = st.trace ++ l ∧
      ∀ c ∈ l,
        c.slot = some ⟨2 * row_number + 1, by show 2 * row_number + 1 < 4; omega⟩ ∨
        c.slot = some ⟨2 * row_number, by show 2 * row_number < 4; omega⟩ := by
  obtain ⟨h1, h0⟩ := row_slotIndex h
  obtain ⟨st1, st2, hu1, hu2, hv⟩ := display_value_chain value row_number
    show_first_leading_zero st h
  obtain ⟨l1, e1, c1⟩ := unload_trace _ _ _ hu1
  obtain ⟨l2, e2, c2⟩ := load_trace (((row_number : Int) * 2) + ((1 : Nat) : Int))
    ((value % 100 % 10 : Nat) : Int) st1
  obtain ⟨l3, e3, c3⟩ := unload_trace _ _ _ hu2
  obtain ⟨l4, e4, c4⟩ := load_trace (((row_number : Int) * 2) + ((0 : Nat) : Int))
    ((value % 100 / 10 % 10 : Nat) : Int) st2
  rw [h1] at c1 c2
  rw [h0] at c3 c4
  by_cases hz : value % 100 / 10 = 0 ∧ show_first_leading_zero = false
  · rw [if_pos hz] at hv
    refine ⟨st2, l1 ++ l2 ++ l3, hv, ?_, ?_⟩
    · rw [e3, e2, e1]
      simp only [List.append_assoc]
    · intro c hc
      simp only [List.mem_append] at hc
      rcases hc with (hc | hc) | hc
      · exact Or.inl (c1 c hc)
      · exact Or.inl (c2 c hc)
      · exact Or.inr (c3 c hc)
  · rw [if_neg hz] at hv
    refine ⟨_, l1 ++ l2 ++ l3 ++ l4, hv, ?_, ?_⟩
    · rw [e4, e3, e2, e1]
      simp only [List.append_assoc]
    · intro c hc
      simp only [List.mem_append] at hc
      rcases hc with ((hc | hc) | hc) | hc
      · exact Or.inl (c1 c hc)
      · exact Or.inl (c2 c hc)
      · exact Or.inr (c3 c hc)
      · exact Or.inr (c4 c hc)

theorem handle_deinit_returns (st : State) : ∃ st1, handle_deinit st = some st1 := by
  obtain ⟨st4, h4, _⟩ :=
    handle_deinit_loop_spec (fun _ => True) (fun _ _ _ _ _ => trivial) 4 0 st rfl trivial
  refine ⟨{ st4 with trace := st4.trace ++ [SdkCall.fonts_unload_custom_font] }, ?_⟩
  unfold handle_deinit
  rw [h4]

theorem get_display_hour_12h (hour : Nat) :
    1 ≤ get_display_hour false hour ∧ get_display_hour false hour ≤ 12 ∧
      get_display_hour false hour % 12 = hour % 12 := by
  unfold get_display_hour
  simp only [Bool.false_eq_true, if_false]
  by_cases h : hour % 12 = 0
  · simp [h]
  · simp only [ne_eq, h, not_false_eq_true, if_true]
    omega

/-! ## Invariant of the slot entries, order of calls, bounds and frame -/

/-- C11: every entry of `image_slot_state` is `EMPTY_SLOT` or a digit in
`0..9`: in the initial state, after a load with any arguments, after an unload
with an index in `0..3`, after `display_value` on row 0 or 1, after
`display_time`, each of which returns, and so in every state reached from the
initial state by such calls. -/
theorem slot_entries_valid :
    ValidSlots State.initial ∧
    (∀ (slot_number digit_value : Int) (st : State), ValidSlots st →
      ValidSlots (load_digit_image_into_slot slot_number digit_value st)) ∧
    (∀ (slot_number : Int) (st : State), 0 ≤ slot_number → slot_number < 4 → ValidSlots st →
      ∃ st1, unload_digit_image_from_slot slot_number st = some st1 ∧ ValidSlots st1) ∧
    (∀ (value row_number : Nat) (show_first_leading_zero : Bool) (st : State),
      row_number ≤ 1 → ValidSlots st →
      ∃ st1, display_value value row_number show_first_leading_zero st = some st1 ∧
        ValidSlots st1) ∧
    (∀ (tm_hour tm_min : Int) (clock_is_24h_style : Bool) (st : State), ValidSlots st →
      ∃ st1, display_time tm_hour tm_min clock_is_24h_style st = some st1 ∧ ValidSlots st1) ∧
    (∀ ops : List Op, (∀ op ∈ ops, op.admissible = true) →
      ∃ st, run ops State.initial = some st ∧ ValidSlots st) := by
  refine ⟨validSlots_initial, load_validSlots, ?_, ?_, ?_, ?_⟩
  · intro slot_number st h0 h4 hv
    obtain ⟨slot, hs⟩ := slotIndex_of_range h0 h4
    exact ⟨_, unload_eq st hs, unload_validSlots _ _ _ hv (unload_eq st hs)⟩
  · intro value row_number f st hr hv
    obtain ⟨st3, h3, _⟩ := display_value_slots value row_number f st hr
    exact ⟨st3, h3, display_value_loop_keeps ValidSlots load_validSlots unload_validSlots
      _ _ _ _ _ _ hv h3⟩
  · intro tm_hour tm_min c st hv
    obtain ⟨st2, h2, _⟩ := display_time_slots tm_hour tm_min c st
    exact ⟨st2, h2, display_time_keeps ValidSlots load_validSlots unload_validSlots
      _ _ _ _ _ hv h2⟩
  · intro ops hadm
    obtain ⟨st, hst⟩ := run_returns ops hadm State.initial
    exact ⟨st, hst, run_keeps ValidSlots load_validSlots unload_validSlots ops _ _
      validSlots_initial hst⟩

/-- Witness of C11: a load with arguments out of range, a tick at 23:59, an
unload and a `display_value` of 65535 leave valid entries. -/
theorem slot_entries_valid_witness :
    (∀ op ∈ [Op.load 7 (-3), Op.display_time 23 59 true, Op.unload 2,
      Op.display_value 65535 0 false], op.admissible = true) ∧
    ∃ st, run [Op.load 7 (-3), Op.display_time 23 59 true, Op.unload 2,
        Op.display_value 65535 0 false] State.initial = some st ∧ ValidSlots st :=
  ⟨by decide,
   slot_entries_valid.2.2.2.2.2
     [Op.load 7 (-3), Op.display_time 23 59 true, Op.unload 2, Op.display_value 65535 0 false]
     (by decide)⟩

/-- C12: for every value, the 16-bit ones among them, and row 0 or 1,
`display_value` on `value` and on `value % 100` return the same state, trace
included, and issue the same calls of the slot manager in the same order. -/
theorem display_value_mod_100 (value row_number : Nat) (show_first_leading_zero : Bool)
    (st : State) (hr : row_number ≤ 1) :
    display_value value row_number show_first_leading_zero st =
      display_value (value % 100) row_number show_first_leading_zero st ∧
    display_value_calls value row_number show_first_leading_zero =
      display_value_calls (value % 100) row_number show_first_leading_zero ∧
    ∃ st1, display_value value row_number show_first_leading_zero st = some st1 ∧
      run (display_value_calls (value % 100) row_number show_first_leading_zero) st
        = some st1 := by
  have hcalls : display_value_calls value row_number show_first_leading_zero =
      display_value_calls (value % 100) row_number show_first_leading_zero := by
    unfold display_value_calls
    rw [Nat.mod_mod]
  refine ⟨?_, hcalls, ?_⟩
  · unfold display_value
    rw [Nat.mod_mod]
  · obtain ⟨st3, h3, _⟩ := display_value_slots value row_number show_first_leading_zero st hr
    refine ⟨st3, h3, ?_⟩
    rw [← hcalls, ← display_value_run]
    exact h3

/-- Witness of C12: 12345 on the minute row is displayed as 45. -/
theorem display_value_mod_100_witness :
    1 ≤ 1 ∧
    display_value 12345 1 true State.initial = display_value 45 1 true State.initial ∧
    display_value_calls 12345 1 true = display_value_calls 45 1 true :=
  ⟨by decide,
   (display_value_mod_100 12345 1 true State.initial (by decide)).1,
   (display_value_mod_100 12345 1 true State.initial (by decide)).2.1⟩

/-- C13: `display_value` on row 0 or 1 issues, in this order, the unload of
the ones slot, the load of the ones digit, the unload of the tens slot and,
unless the leading zero is blanked, the load of the tens digit, and carries
them out one after the other.  Each load follows the unload of its slot, so it
meets an empty slot and a digit in `0..9`, passes its guards, records the
digit and acquires and attaches the image. -/
theorem display_value_order (value row_number : Nat) (show_first_leading_zero : Bool)
    (st : State) (hr : row_number ≤ 1) :
    display_value_calls value row_number show_first_leading_zero =
      [ Op.unload (((row_number : Int) * 2) + ((1 : Nat) : Int)),
        Op.load (((row_number : Int) * 2) + ((1 : Nat) : Int)) ((value % 100 % 10 : Nat) : Int),
        Op.unload (((row_number : Int) * 2) + ((0 : Nat) : Int)) ] ++
      (if value % 100 / 10 = 0 ∧ show_first_leading_zero = false then []
        else [Op.load (((row_number : Int) * 2) + ((0 : Nat) : Int))
          ((value % 100 / 10 % 10 : Nat) : Int)]) ∧
    display_value value row_number show_first_leading_zero st =
      run (display_value_calls value row_number show_first_leading_zero) st ∧
    ∃ st1 st2,
      unload_digit_image_from_slot (((row_number : Int) * 2) + ((1 : Nat) : Int)) st = some st1 ∧
      st1.image_slot_state ⟨2 * row_number + 1, by show 2 * row_number + 1 < 4; omega⟩
        = EMPTY_SLOT ∧
      load_digit_image_into_slot (((row_number : Int) * 2) + ((1 : Nat) : Int))
          ((value % 100 % 10 : Nat) : Int) st1 =
        { image_slot_state := Function.update st1.image_slot_state
            ⟨2 * row_number + 1, by show 2 * row_number + 1 < 4; omega⟩
            ((value % 100 % 10 : Nat) : Int)
          trace := st1.trace ++
            [ SdkCall.bmp_init_container
                (IMAGE_RESOURCE_IDS ⟨value % 100 % 10, by show value % 100 % 10 < 10; omega⟩)
                ⟨2 * row_number + 1, by show 2 * row_number + 1 < 4; omega⟩,
              SdkCall.set_frame_origin_x
                ⟨2 * row_number + 1, by show 2 * row_number + 1 < 4; omega⟩
                (((((row_number : Int) * 2) + ((1 : Nat) : Int)) % 2) * 72),
              SdkCall.set_frame_origin_y
                ⟨2 * row_number + 1, by show 2 * row_number + 1 < 4; omega⟩
                (((((row_number : Int) * 2) + ((1 : Nat) : Int)) / 2) * 64),
              SdkCall.layer_add_child
                ⟨2 * row_number + 1, by show 2 * row_number + 1 < 4; omega⟩ ] } ∧
      unload_digit_image_from_slot (((row_number : Int) * 2) + ((0 : Nat) : Int))
        (load_digit_image_into_slot (((row_number : Int) * 2) + ((1 : Nat) : Int))
          ((value % 100 % 10 : Nat) : Int) st1) = some st2 ∧
      st2.image_slot_state ⟨2 * row_number, by show 2 * row_number < 4; omega⟩ = EMPTY_SLOT ∧
      load_digit_image_into_slot (((row_number : Int) * 2) + ((0 : Nat) : Int))
          ((value % 100 / 10 % 10 : Nat) : Int) st2 =
        { image_slot_state := Function.update st2.image_slot_state
            ⟨2 * row_number, by show 2 * row_number < 4; omega⟩
            ((value % 100 / 10 % 10 : Nat) : Int)
          trace := st2.trace ++
            [ SdkCall.bmp_init_container
                (IMAGE_RESOURCE_IDS
                  ⟨value % 100 / 10 % 10, by show value % 100 / 10 % 10 < 10; omega⟩)
                ⟨2 * row_number, by show 2 * row_number < 4; omega⟩,
              SdkCall.set_frame_origin_x ⟨2 * row_number, by show 2 * row_number < 4; omega⟩
                (((((row_number : Int) * 2) + ((0 : Nat) : Int)) % 2) * 72),
              SdkCall.set_frame_origin_y ⟨2 * row_number, by show 2 * row_number < 4; omega⟩
                (((((row_number : Int) * 2) + ((0 : Nat) : Int)) / 2) * 64),
              SdkCall.layer_add_child ⟨2 * row_number, by show 2 * row_number < 4; omega⟩ ] } ∧
      display_value value row_number show_first_leading_zero st =
        some (if value % 100 / 10 = 0 ∧ show_first_leading_zero = false then st2
          else load_digit_image_into_slot (((row_number : Int) * 2) + ((0 : Nat) : Int))
            ((value % 100 / 10 % 10 : Nat) : Int) st2) := by
  obtain ⟨h1, h0⟩ := row_slotIndex hr
  obtain ⟨st1, st2, hu1, hu2, hv⟩ := display_value_chain value row_number
    show_first_leading_zero st hr
  have e1 : st1.image_slot_state ⟨2 * row_number + 1, by show 2 * row_number + 1 < 4; omega⟩
      = EMPTY_SLOT := by
    rw [unload_slots h1 hu1, Function.update_same]
  have e2 : st2.image_slot_state ⟨2 * row_number, by show 2 * row_number < 4; omega⟩
      = EMPTY_SLOT := by
    rw [unload_slots h0 hu2, Function.update_same]
  exact ⟨display_value_calls_eq value row_number show_first_leading_zero,
    display_value_run value row_number show_first_leading_zero st,
    st1, st2, hu1, e1, load_success st1 h1 rfl e1, hu2, e2, load_success st2 h0 rfl e2, hv⟩

/-- Witness of C13: the calls for the hour 7 on row 0 with the leading zero
blanked, and for the minute 5 on row 1 with the leading zero shown. -/
theorem display_value_order_witness :
    (0 ≤ 1 ∧ 1 ≤ 1) ∧
    display_value_calls 7 0 false = [Op.unload 1, Op.load 1 7, Op.unload 0] ∧
    display_value_calls 5 1 true = [Op.unload 3, Op.load 3 5, Op.unload 2, Op.load 2 0] :=
  ⟨by decide,
   (display_value_order 7 0 false State.initial (by decide)).1,
   (display_value_order 5 1 true State.initial (by decide)).1⟩

/-- C15: on row 0 or 1 every call that `display_value` issues to the slot
manager carries a slot index in `0..3`, so no unload reads outside
`image_slot_state` and `display_value` returns; `display_time` returns for
every time and `handle_deinit` returns, from every state.  On row 2 the first
unload would read outside the array. -/
theorem slot_indices_in_bounds (value row_number : Nat) (show_first_leading_zero : Bool)
    (st : State) (hr : row_number ≤ 1) :
    (∀ op ∈ display_value_calls value row_number show_first_leading_zero,
      ∃ s : Fin TOTAL_IMAGE_SLOTS, op = Op.unload ((s : Nat) : Int) ∨
        ∃ d : Int, op = Op.load ((s : Nat) : Int) d) ∧
    display_value value row_number show_first_leading_zero st =
      run (display_value_calls value row_number show_first_leading_zero) st ∧
    (∃ st1, display_value value row_number show_first_leading_zero st = some st1) ∧
    (∀ (tm_hour tm_min : Int) (clock_is_24h_style : Bool),
      ∃ st2, display_time tm_hour tm_min clock_is_24h_style st = some st2) ∧
    (∃ st3, handle_deinit st = some st3) ∧
    display_value value 2 show_first_leading_zero st = none := by
  refine ⟨?_, display_value_run value row_number show_first_leading_zero st, ?_, ?_,
    handle_deinit_returns st, ?_⟩
  · intro op hop
    rw [display_value_calls_eq] at hop
    have hones : (((row_number : Int) * 2) + ((1 : Nat) : Int)) =
        (((⟨2 * row_number + 1, by show 2 * row_number + 1 < 4; omega⟩ :
          Fin TOTAL_IMAGE_SLOTS) : Nat) : Int) := by
      show _ = ((2 * row_number + 1 : Nat) : Int)
      omega
    have htens : (((row_number : Int) * 2) + ((0 : Nat) : Int)) =
        (((⟨2 * row_number, by show 2 * row_number < 4; omega⟩ :
          Fin TOTAL_IMAGE_SLOTS) : Nat) : Int) := by
      show _ = ((2 * row_number : Nat) : Int)
      omega
    rw [hones, htens] at hop
    simp only [List.mem_append, List.mem_cons, List.mem_singleton, List.not_mem_nil,
      or_false] at hop
    rcases hop with (hop | hop | hop) | hop
    · exact ⟨⟨2 * row_number + 1, by show 2 * row_number + 1 < 4; omega⟩, Or.inl hop⟩
    · exact ⟨⟨2 * row_number + 1, by show 2 * row_number + 1 < 4; omega⟩, Or.inr ⟨_, hop⟩⟩
    · exact ⟨⟨2 * row_number, by show 2 * row_number < 4; omega⟩, Or.inl hop⟩
    · split at hop
      · simp at hop
      · simp only [List.mem_singleton] at hop
        exact ⟨⟨2 * row_number, by show 2 * row_number < 4; omega⟩, Or.inr ⟨_, hop⟩⟩
  · obtain ⟨st3, h3, _⟩ := display_value_slots value row_number show_first_leading_zero st hr
    exact ⟨st3, h3⟩
  · intro tm_hour tm_min c
    obtain ⟨st2, h2, _⟩ := display_time_slots tm_hour tm_min c st
    exact ⟨st2, h2⟩
  · unfold display_value
    rw [display_value_loop_succ]
    have hnone : unload_digit_image_from_slot ((((2 : Nat) : Int) * 2) + ((1 : Nat) : Int)) st
        = none := by
      unfold unload_digit_image_from_slot
      rw [slotIndex_none (by omega)]
    rw [hnone]

/-- Witness of C15: the calls for 42 on row 1 go to slots 3 and 2, and the
call returns. -/
theorem slot_indices_in_bounds_witness :
    1 ≤ 1 ∧
    display_value_calls 42 1 false = [Op.unload 3, Op.load 3 2, Op.unload 2, Op.load 2 4] ∧
    (∃ st1, display_value 42 1 false State.initial = some st1) ∧
    display_value 42 2 false State.initial = none :=
  ⟨by decide, by decide,
   (slot_indices_in_bounds 42 1 false State.initial (by decide)).2.2.1,
   (slot_indices_in_bounds 42 1 false State.initial (by decide)).2.2.2.2.2⟩

/-- C17: `display_value` on row 0 returns and leaves entries 2 and 3 of
`image_slot_state` as they were, and its effects act on containers 0 and 1
only; on row 1 it returns and leaves entries 0 and 1 as they were, and its
effects act on containers 2 and 3 only. -/
theorem display_value_frame (value : Nat) (show_first_leading_zero : Bool) (st : State) :
    (∃ st1 l, display_value value 0 show_first_leading_zero st = some st1 ∧
      st1.image_slot_state 2 = st.image_slot_state 2 ∧
      st1.image_slot_state 3 = st.image_slot_state 3 ∧
      st1.trace = st.trace ++ l ∧
      ∀ c ∈ l, c.slot = some 1 ∨ c.slot = some 0) ∧
    (∃ st1 l, display_value value 1 show_first_leading_zero st = some st1 ∧
      st1.image_slot_state 0 = st.image_slot_state 0 ∧
      st1.image_slot_state 1 = st.image_slot_state 1 ∧
      st1.trace = st.trace ++ l ∧
      ∀ c ∈ l, c.slot = some 3 ∨ c.slot = some 2) := by
  constructor
  · obtain ⟨st3, h3, e3⟩ := display_value_slots value 0 show_first_leading_zero st (by decide)
    obtain ⟨st4, l, h4, et, hc⟩ :=
      display_value_trace value 0 show_first_leading_zero st (by decide)
    rw [h3] at h4
    simp only [Option.some.injEq] at h4
    subst h4
    refine ⟨st3, l, h3, ?_, ?_, et, hc⟩
    · rw [e3]
      have h20 : (2 : Fin TOTAL_IMAGE_SLOTS) ≠ ⟨2 * 0, by decide⟩ := by decide
      have h21 : (2 : Fin TOTAL_IMAGE_SLOTS) ≠ ⟨2 * 0 + 1, by decide⟩ := by decide
      rw [Function.update_noteq h20, Function.update_noteq h21]
    · rw [e3]
      have h30 : (3 : Fin TOTAL_IMAGE_SLOTS) ≠ ⟨2 * 0, by decide⟩ := by decide
      have h31 : (3 : Fin TOTAL_IMAGE_SLOTS) ≠ ⟨2 * 0 + 1, by decide⟩ := by decide
      rw [Function.update_noteq h30, Function.update_noteq h31]
  · obtain ⟨st3, h3, e3⟩ := display_value_slots value 1 show_first_leading_zero st (by decide)
    obtain ⟨st4, l, h4, et, hc⟩ :=
      display_value_trace value 1 show_first_leading_zero st (by decide)
    rw [h3] at h4
    simp only [Option.some.injEq] at h4
    subst h4
    refine ⟨st3, l, h3, ?_, ?_, et, hc⟩
    · rw [e3]
      have h02 : (0 : Fin TOTAL_IMAGE_SLOTS) ≠ ⟨2 * 1, by decide⟩ := by decide
      have h03 : (0 : Fin TOTAL_IMAGE_SLOTS) ≠ ⟨2 * 1 + 1, by decide⟩ := by decide
      rw [Function.update_noteq h02, Function.update_noteq h03]
    · rw [e3]
      have h12 : (1 : Fin TOTAL_IMAGE_SLOTS) ≠ ⟨2 * 1, by decide⟩ := by decide
      have h13 : (1 : Fin TOTAL_IMAGE_SLOTS) ≠ ⟨2 * 1 + 1, by decide⟩ := by decide
      rw [Function.update_noteq h12, Function.update_noteq h13]

/-- C18: in 12h style `get_display_hour` returns, for every hour, a value in
`1..12` congruent to the hour modulo 12; so after `display_time` in 12h
style, which returns for every time, slot 0 is empty or shows 1. -/
theorem display_hour_12h_range (hour : Nat) (tm_hour tm_min : Int) (st : State) :
    (1 ≤ get_display_hour false hour ∧ get_display_hour false hour ≤ 12 ∧
      get_display_hour false hour % 12 = hour % 12) ∧
    ∃ st2, display_time tm_hour tm_min false st = some st2 ∧
      (slotOf (st2.image_slot_state 0) = SlotState.Empty ∨
        slotOf (st2.image_slot_state 0) = SlotState.Loaded 1) := by
  refine ⟨get_display_hour_12h hour, ?_⟩
  obtain ⟨st2, h2, e0, _⟩ := display_time_slots tm_hour tm_min false st
  obtain ⟨hlo, hhi, _⟩ := get_display_hour_12h (toUShort tm_hour)
  refine ⟨st2, h2, ?_⟩
  rw [e0]
  by_cases hz : get_display_hour false (toUShort tm_hour) % 100 / 10 = 0
  · left
    rw [if_pos hz, slotOf_empty]
  · right
    rw [if_neg hz]
    have h1 : get_display_hour false (toUShort tm_hour) % 100 / 10 = 1 := by omega
    rw [h1]
    exact slotOf_natCast 1

/-! ## The date label -/

theorem c_string_of_storedAt (date_text : Fin DATE_TEXT_SIZE → Char) (text : List Char) :
    ∀ (start fuel : Nat), StoredAt date_text start text → text.length < fuel →
      c_string date_text start fuel = some text := by
  induction text with
  | nil =>
    intro start fuel hs hf
    cases fuel with
    | zero => simp at hf
    | succ f =>
      simp only [StoredAt] at hs
      simp only [c_string, hs, if_true]
  | cons c t ih =>
    intro start fuel hs hf
    cases fuel with
    | zero => simp at hf
    | succ f =>
      obtain ⟨h1, h2, h3⟩ := hs
      have hlen : t.length < f := by
        simp only [List.length_cons] at hf
        omega
      simp only [c_string, h1, h2, if_false, ih (start + 1) f h3 hlen, Option.map_some']

theorem isAlpha_ne_NUL {c : Char} (h : c.isAlpha = true) : c ≠ NUL := by
  intro hc
  rw [hc] at h
  exact absurd h (by decide)

theorem isDigit_ne_NUL {c : Char} (h : c.isDigit = true) : c ≠ NUL := by
  intro hc
  rw [hc] at h
  exact absurd h (by decide)

/-- The move of `display_date` is refused: six bytes from index 5 to index 4
do not fit in the seven bytes of `date_text`. -/
theorem memmove_date_text (date_text : Fin DATE_TEXT_SIZE → Char) :
    memmove 4 5 (DATE_TEXT_SIZE - 1) date_text =
      Except.error { reads := [5, 6, 7, 8, 9, 10], writes := [4, 5, 6, 7, 8, 9] } := by
  unfold memmove
  rw [dif_neg (by decide)]
  rfl

/-- With the day bit set and a first day digit `0`, `display_date` runs into
the refused move, whatever the other characters. -/
theorem display_date_fault (DAY_UNIT units_changed : Nat) (w0 w1 w2 d2 : Char)
    (st : DateState) (hday : units_changed &&& DAY_UNIT ≠ 0) :
    display_date DAY_UNIT units_changed [w0, w1, w2, ' ', '0', d2] st =
      Except.error { reads := [5, 6, 7, 8, 9, 10], writes := [4, 5, 6, 7, 8, 9] } := by
  have h4 : ∀ date_text : Fin DATE_TEXT_SIZE → Char,
      ((([w0, w1, w2, ' ', '0', d2] : List Char).take (DATE_TEXT_SIZE - 1) ++ [NUL])[
        ((4 : Fin DATE_TEXT_SIZE) : Nat)]?).getD (date_text 4) = '0' := fun _ => rfl
  unfold display_date
  rw [if_pos hday]
  unfold string_format_time
  rw [if_pos (le_refl _)]
  simp only [h4, if_true]
  rw [memmove_date_text]

/-- C14, evaluated on the code: with the day bit of `units_changed` set and a
formatted date of three letters, a space and two digits, `display_date`
returns and the label shows the six characters as formatted when the first
digit is not `0`.  When the first digit is `0`, the day being below 10, the
move that is to drop it is refused, for it reads the indices 5 to 10 and
writes the indices 4 to 9 of the seven bytes of `date_text`: `display_date`
returns no state and the five-character text is not obtained. -/
theorem display_date_label (DAY_UNIT units_changed : Nat) (w0 w1 w2 d1 d2 : Char)
    (st : DateState) (fuel : Nat)
    (hday : units_changed &&& DAY_UNIT ≠ 0)
    (hw0 : w0.isAlpha = true) (hw1 : w1.isAlpha = true) (hw2 : w2.isAlpha = true)
    (hd1 : d1.isDigit = true) (hd2 : d2.isDigit = true) (hfuel : DATE_TEXT_SIZE ≤ fuel) :
    (d1 ≠ '0' →
      ∃ st1, display_date DAY_UNIT units_changed [w0, w1, w2, ' ', d1, d2] st = Except.ok st1 ∧
        st1.date_layer_text = true ∧
        date_label st1 fuel = some [w0, w1, w2, ' ', d1, d2]) ∧
    (d1 = '0' →
      display_date DAY_UNIT units_changed [w0, w1, w2, ' ', d1, d2] st =
        Except.error { reads := [5, 6, 7, 8, 9, 10], writes := [4, 5, 6, 7, 8, 9] } ∧
      ∀ st1, display_date DAY_UNIT units_changed [w0, w1, w2, ' ', d1, d2] st
        ≠ Except.ok st1) := by
  have n0 := isAlpha_ne_NUL hw0
  have n1 := isAlpha_ne_NUL hw1
  have n2 := isAlpha_ne_NUL hw2
  have n3 : ' ' ≠ NUL := by decide
  have n4 := isDigit_ne_NUL hd1
  have n5 := isDigit_ne_NUL hd2
  have hT : DATE_TEXT_SIZE = 7 := rfl
  constructor
  · intro h0
    have h4 : ∀ date_text : Fin DATE_TEXT_SIZE → Char,
        ((([w0, w1, w2, ' ', d1, d2] : List Char).take (DATE_TEXT_SIZE - 1) ++ [NUL])[
          ((4 : Fin DATE_TEXT_SIZE) : Nat)]?).getD (date_text 4) = d1 := fun _ => rfl
    have hok : display_date DAY_UNIT units_changed [w0, w1, w2, ' ', d1, d2] st =
        Except.ok
          { date_text := fun i =>
              ((([w0, w1, w2, ' ', d1, d2] : List Char).take (DATE_TEXT_SIZE - 1)
                ++ [NUL])[(i : Nat)]?).getD (st.date_text i)
            date_layer_text := true } := by
      unfold display_date
      rw [if_pos hday]
      unfold string_format_time
      rw [if_pos (le_refl _)]
      simp only [h4, h0, if_false]
    refine ⟨_, hok, rfl, ?_⟩
    have hlen : ([w0, w1, w2, ' ', d1, d2] : List Char).length < fuel := by
      show 6 < fuel
      omega
    unfold date_label
    rw [if_pos rfl]
    refine c_string_of_storedAt _ _ 0 fuel ?_ hlen
    simp [StoredAt, readByte, n0, n1, n2, n3, n4, n5]
    decide
  · intro h0
    subst h0
    have hf := display_date_fault DAY_UNIT units_changed w0 w1 w2 d2 st hday
    refine ⟨hf, ?_⟩
    intro st1 hc
    rw [hf] at hc
    cases hc

/-- Witness of C14: with the day bit taken as 8 and all four unit bits set,
the formatted date `Mon 15` is shown as it is, and for `Mon 05` no state is
returned. -/
theorem display_date_label_witness :
    ((15 : Nat) &&& 8 ≠ 0 ∧ DATE_TEXT_SIZE ≤ 7) ∧
    (∃ st1, display_date 8 15 ['M', 'o', 'n', ' ', '1', '5'] DateState.initial = Except.ok st1 ∧
      st1.date_layer_text = true ∧
      date_label st1 7 = some ['M', 'o', 'n', ' ', '1', '5']) ∧
    display_date 8 15 ['M', 'o', 'n', ' ', '0', '5'] DateState.initial =
      Except.error { reads := [5, 6, 7, 8, 9, 10], writes := [4, 5, 6, 7, 8, 9] } :=
  ⟨by decide,
   (display_date_label 8 15 'M' 'o' 'n' '1' '5' DateState.initial 7
      (by decide) (by decide) (by decide) (by decide) (by decide) (by decide) (by decide)).1
      (by decide),
   ((display_date_label 8 15 'M' 'o' 'n' '0' '5' DateState.initial 7
      (by decide) (by decide) (by decide) (by decide) (by decide) (by decide) (by decide)).2
      rfl).1⟩

/-- C16, evaluated on the code: for the formatted date `Mon 05`, with the day
bit taken as 8, the move of `sizeof(date_text) - 1 = 6` bytes is to read the
indices 5 to 10 and to write the indices 4 to 9, while `date_text` is the
indices 0 to 6; `display_date` stops there, from every state. -/
theorem date_text_move_out_of_bounds (st : DateState) :
    ∃ fault, display_date 8 8 ['M', 'o', 'n', ' ', '0', '5'] st = Except.error fault ∧
      fault.reads = [5, 6, 7, 8, 9, 10] ∧
      fault.writes = [4, 5, 6, 7, 8, 9] ∧
      ¬ (∀ i ∈ fault.reads, i < DATE_TEXT_SIZE) ∧
      ¬ (∀ i ∈ fault.writes, i < DATE_TEXT_SIZE) :=
  ⟨_, display_date_fault 8 8 'M' 'o' 'n' '5' st (by decide), rfl, rfl, by decide, by decide⟩

end BigTime
